import Mathlib

/-!
# Verification of the club-membership store (`firebase_config.py`)

A shallow embedding of the `FirebaseDB` class of `firebase_config.py`.
The Firestore database is modelled as five collections:

* `clubs`, `students`, `club_members`, `student_memberships` are key/value
  collections accessed only by document id, modelled as functions
  `String → Option _`;
* `memberships` is additionally queried by field values
  (`where("club_id", ...)`, `where("student_id", ...)`), so it is modelled as
  an association list from document id to the document contents.

Documents of `club_members` / `student_memberships` are Firestore maps from a
key (student id resp. club id) to an `Entry` map; they are modelled as
association lists with no duplicate keys.

Firestore behaviour mirrored by the model:

* `document()` generates a fresh document id; the id is passed as an explicit
  parameter, with freshness hypotheses where the reachability relation uses it.
* `set` creates or overwrites; `update` fails when the target document does
  not exist; a write batch and a transaction are atomic, so one failing
  `update` aborts every write of the batch/transaction.
* `update` with a field map adds or overwrites the single field;
  `DELETE_FIELD` removes it.
* `datetime.now().isoformat()` values are passed as explicit `now` parameters.
* Firestore document ids are non-empty strings; the reachability relation
  only builds states through non-empty ids.
-/

/-! ## Association lists with string keys -/

def keys {α : Type} (m : List (String × α)) : List String := m.map Prod.fst

/-- First value stored under key `k`, like a Python dict / Firestore map read. -/
def getk {α : Type} (m : List (String × α)) (k : String) : Option α :=
  match m with
  | [] => none
  | (k', v) :: rest => if k' = k then some v else getk rest k

/-- Insert or overwrite the binding of `k`, like `doc[k] = v`. -/
def setKey {α : Type} (k : String) (v : α) (m : List (String × α)) : List (String × α) :=
  match m with
  | [] => [(k, v)]
  | (k', v') :: rest => if k' = k then (k, v) :: rest else (k', v') :: setKey k v rest

/-- Remove the first binding of `k`, like `DELETE_FIELD` on a Firestore map. -/
def eraseKey {α : Type} (k : String) (m : List (String × α)) : List (String × α) :=
  match m with
  | [] => []
  | (k', v') :: rest => if k' = k then rest else (k', v') :: eraseKey k rest

namespace AssocLemmas

variable {α : Type}

@[simp] theorem keys_nil : keys ([] : List (String × α)) = [] := rfl

@[simp] theorem keys_cons (p : String × α) (m : List (String × α)) :
    keys (p :: m) = p.1 :: keys m := rfl

@[simp] theorem getk_nil (k : String) : getk ([] : List (String × α)) k = none := rfl

theorem getk_setKey_self (m : List (String × α)) (k : String) (v : α) :
    getk (setKey k v m) k = some v := by
  induction m with
  | nil => simp [setKey, getk]
  | cons p rest ih =>
    obtain ⟨k', v'⟩ := p
    by_cases h : k' = k
    · simp [setKey, h, getk]
    · simp [setKey, h, getk, ih]

theorem getk_setKey_ne (m : List (String × α)) (k k' : String) (v : α) (h : k' ≠ k) :
    getk (setKey k v m) k' = getk m k' := by
  induction m with
  | nil =>
    simp only [setKey, getk]
    rw [if_neg (fun hh => h hh.symm)]
  | cons p rest ih =>
    obtain ⟨k₀, v₀⟩ := p
    by_cases h₀ : k₀ = k
    · subst h₀
      simp only [setKey, if_pos rfl, getk]
      rw [if_neg (fun hh => h hh.symm), if_neg (fun hh => h hh.symm)]
    · simp only [setKey, if_neg h₀, getk]
      by_cases h₁ : k₀ = k'
      · simp [h₁]
      · simp [h₁, ih]

theorem getk_eraseKey_ne (m : List (String × α)) (k k' : String) (h : k' ≠ k) :
    getk (eraseKey k m) k' = getk m k' := by
  induction m with
  | nil => simp [eraseKey]
  | cons p rest ih =>
    obtain ⟨k₀, v₀⟩ := p
    by_cases h₀ : k₀ = k
    · subst h₀
      simp [eraseKey, getk, Ne.symm h]
    · simp only [eraseKey, if_neg h₀, getk]
      by_cases h₁ : k₀ = k'
      · simp [h₁]
      · simp [h₁, ih]

theorem eraseKey_of_getk_none (m : List (String × α)) (k : String)
    (h : getk m k = none) : eraseKey k m = m := by
  induction m with
  | nil => simp [eraseKey]
  | cons p rest ih =>
    obtain ⟨k₀, v₀⟩ := p
    by_cases h₀ : k₀ = k
    · simp [getk, h₀] at h
    · simp only [getk, if_neg h₀] at h
      simp [eraseKey, h₀, ih h]

theorem eraseKey_sublist (m : List (String × α)) (k : String) :
    (eraseKey k m).Sublist m := by
  induction m with
  | nil => simp [eraseKey]
  | cons p rest ih =>
    obtain ⟨k₀, v₀⟩ := p
    by_cases h₀ : k₀ = k
    · simp only [eraseKey, if_pos h₀]
      exact (List.sublist_cons_self _ _)
    · simp only [eraseKey, if_neg h₀]
      exact ih.cons₂ _

theorem keys_nodup_eraseKey (m : List (String × α)) (k : String)
    (h : (keys m).Nodup) : (keys (eraseKey k m)).Nodup := by
  have : (keys (eraseKey k m)).Sublist (keys m) := (eraseKey_sublist m k).map Prod.fst
  exact this.nodup h

theorem getk_eq_none_iff (m : List (String × α)) (k : String) :
    getk m k = none ↔ k ∉ keys m := by
  induction m with
  | nil => simp
  | cons p rest ih =>
    obtain ⟨k₀, v₀⟩ := p
    by_cases h₀ : k₀ = k
    · subst h₀; simp [getk]
    · simp only [getk, if_neg h₀, keys_cons, List.mem_cons]
      rw [ih]
      constructor
      · intro hn hor
        rcases hor with hor | hor
        · exact h₀ hor.symm
        · exact hn hor
      · intro hn hm
        exact hn (Or.inr hm)

theorem getk_isSome_iff (m : List (String × α)) (k : String) :
    (getk m k).isSome ↔ k ∈ keys m := by
  have h1 : (¬ k ∉ keys m) ↔ k ∈ keys m := not_not
  rw [← h1, ← getk_eq_none_iff]
  rcases getk m k with _ | v <;> simp

theorem getk_eraseKey_self (m : List (String × α)) (k : String)
    (h : (keys m).Nodup) : getk (eraseKey k m) k = none := by
  induction m with
  | nil => simp [eraseKey]
  | cons p rest ih =>
    obtain ⟨k₀, v₀⟩ := p
    have h' : k₀ ∉ keys rest ∧ (keys rest).Nodup := by simpa [keys] using h
    by_cases h₀ : k₀ = k
    · subst h₀
      simp only [eraseKey, if_pos rfl]
      exact (getk_eq_none_iff rest k₀).mpr h'.1
    · simp only [eraseKey, if_neg h₀, getk, if_neg h₀]
      exact ih h'.2

theorem setKey_of_getk_none (m : List (String × α)) (k : String) (v : α)
    (h : getk m k = none) : setKey k v m = m ++ [(k, v)] := by
  induction m with
  | nil => simp [setKey]
  | cons p rest ih =>
    obtain ⟨k₀, v₀⟩ := p
    by_cases h₀ : k₀ = k
    · simp [getk, h₀] at h
    · simp only [getk, if_neg h₀] at h
      simp [setKey, h₀, ih h]

theorem length_setKey_none (m : List (String × α)) (k : String) (v : α)
    (h : getk m k = none) : (setKey k v m).length = m.length + 1 := by
  simp [setKey_of_getk_none m k v h]

theorem length_setKey_some (m : List (String × α)) (k : String) (v w : α)
    (h : getk m k = some w) : (setKey k v m).length = m.length := by
  induction m with
  | nil => simp [getk] at h
  | cons p rest ih =>
    obtain ⟨k₀, v₀⟩ := p
    by_cases h₀ : k₀ = k
    · simp [setKey, h₀]
    · simp only [getk, if_neg h₀] at h
      simp [setKey, h₀, ih h]

theorem length_eraseKey_some (m : List (String × α)) (k : String) (v : α)
    (h : getk m k = some v) : m.length = (eraseKey k m).length + 1 := by
  induction m with
  | nil => simp [getk] at h
  | cons p rest ih =>
    obtain ⟨k₀, v₀⟩ := p
    by_cases h₀ : k₀ = k
    · simp [eraseKey, h₀]
    · simp only [getk, if_neg h₀] at h
      simp [eraseKey, h₀, ih h]

theorem keys_setKey_some (m : List (String × α)) (k : String) (v w : α)
    (h : getk m k = some w) : keys (setKey k v m) = keys m := by
  induction m with
  | nil => simp [getk] at h
  | cons p rest ih =>
    obtain ⟨k₀, v₀⟩ := p
    by_cases h₀ : k₀ = k
    · simp [setKey, h₀, keys]
    · simp only [getk, if_neg h₀] at h
      simp [setKey, h₀, keys_cons, ih h]

theorem keys_nodup_setKey (m : List (String × α)) (k : String) (v : α)
    (h : (keys m).Nodup) : (keys (setKey k v m)).Nodup := by
  rcases hg : getk m k with _ | w
  · rw [setKey_of_getk_none m k v hg]
    simp only [keys, List.map_append, List.map_cons, List.map_nil]
    rw [List.nodup_append]
    refine ⟨h, by simp, ?_⟩
    intro a ha
    simp only [List.mem_singleton]
    intro hb
    subst hb
    exact absurd ha ((getk_eq_none_iff m a).mp hg)
  · rw [keys_setKey_some m k v w hg]; exact h

theorem mem_setKey (m : List (String × α)) (k : String) (v : α) (p : String × α)
    (h : p ∈ setKey k v m) : p = (k, v) ∨ p ∈ m := by
  induction m with
  | nil => simp [setKey] at h; simp [h]
  | cons q rest ih =>
    obtain ⟨k₀, v₀⟩ := q
    by_cases h₀ : k₀ = k
    · simp only [setKey, if_pos h₀, List.mem_cons] at h
      rcases h with h | h
      · exact Or.inl h
      · exact Or.inr (List.mem_cons_of_mem _ h)
    · simp only [setKey, if_neg h₀, List.mem_cons] at h
      rcases h with h | h
      · exact Or.inr (by simp [h])
      · rcases ih h with h' | h'
        · exact Or.inl h'
        · exact Or.inr (List.mem_cons_of_mem _ h')

theorem self_mem_setKey (m : List (String × α)) (k : String) (v : α) :
    (k, v) ∈ setKey k v m := by
  induction m with
  | nil => simp [setKey]
  | cons q rest ih =>
    obtain ⟨k₀, v₀⟩ := q
    by_cases h₀ : k₀ = k
    · simp [setKey, h₀]
    · simp only [setKey, if_neg h₀, List.mem_cons]
      exact Or.inr ih

theorem mem_of_getk_some (m : List (String × α)) (k : String) (v : α)
    (h : getk m k = some v) : (k, v) ∈ m := by
  induction m with
  | nil => simp [getk] at h
  | cons q rest ih =>
    obtain ⟨k₀, v₀⟩ := q
    by_cases h₀ : k₀ = k
    · simp only [getk, if_pos h₀] at h
      subst h₀
      simp only [Option.some_inj] at h
      simp [h]
    · simp only [getk, if_neg h₀] at h
      exact List.mem_cons_of_mem _ (ih h)

theorem getk_of_mem_nodup (m : List (String × α)) (k : String) (v : α)
    (hn : (keys m).Nodup) (h : (k, v) ∈ m) : getk m k = some v := by
  induction m with
  | nil => simp at h
  | cons q rest ih =>
    obtain ⟨k₀, v₀⟩ := q
    have h' : k₀ ∉ keys rest ∧ (keys rest).Nodup := by simpa [keys] using hn
    rcases List.mem_cons.mp h with h | h
    · obtain ⟨rfl, rfl⟩ := Prod.mk.injEq .. ▸ h
      simp [getk]
    · by_cases h₀ : k₀ = k
      · subst h₀
        exact absurd (by simpa [keys] using List.mem_map_of_mem Prod.fst h) h'.1
      · simp only [getk, if_neg h₀]
        exact ih h'.2 h

theorem eraseKey_eq_filter (m : List (String × α)) (k : String)
    (hn : (keys m).Nodup) :
    eraseKey k m = m.filter (fun p => !(p.1 == k)) := by
  induction m with
  | nil => rfl
  | cons q rest ih =>
    obtain ⟨k₀, v₀⟩ := q
    have h' : k₀ ∉ keys rest ∧ (keys rest).Nodup := by simpa [keys] using hn
    by_cases h₀ : k₀ = k
    · subst h₀
      simp only [eraseKey, if_pos rfl]
      rw [List.filter_cons_of_neg (by simp)]
      refine (List.filter_eq_self.mpr fun p hp => ?_).symm
      have hne : p.1 ≠ k₀ := fun hq => h'.1 (hq ▸ List.mem_map_of_mem Prod.fst hp)
      simp [hne]
    · simp only [eraseKey, if_neg h₀]
      rw [List.filter_cons_of_pos (by simp [h₀])]
      rw [ih h'.2]

end AssocLemmas

open AssocLemmas

/-! ## Data model

Field names follow the dictionaries stored by `firebase_config.py`.
Only the fields the verified properties depend on are modelled; extra
free-form fields (`category`, `meeting_time`, `major`, ...) that no operation
reads are carried where they matter (club creation/update) and omitted where
they are never consulted.
-/

/-- A document of the `clubs` collection (`create_club`). -/
structure Club where
  name : String
  description : String
  category : Option String
  meeting_time : Option String
  created_at : String
  member_count : Int
deriving DecidableEq, Repr

/-- A document of the `students` collection (`create_student`);
`email` is `none` when the field is absent. -/
structure Student where
  name : String
  email : Option String
  created_at : String
deriving DecidableEq, Repr

/-- A value of a `club_members`/`student_memberships` map field
(the `entry` dict of `add_member_to_club`). -/
structure Entry where
  membership_id : String
  role : String
  join_date : String
deriving DecidableEq, Repr

/-- A document of the `memberships` collection
(the `membership_data` dict of `add_member_to_club`). -/
structure MembershipRow where
  club_id : String
  student_id : String
  role : String
  join_date : String
deriving DecidableEq, Repr

/-- A `club_members` or `student_memberships` document: a Firestore map from
student id (resp. club id) to an entry. -/
abbrev Doc := List (String × Entry)

/-- The Firestore state used by `FirebaseDB`. -/
structure DB where
  clubs : String → Option Club
  students : String → Option Student
  memberships : List (String × MembershipRow)
  club_members : String → Option Doc
  student_memberships : String → Option Doc

def emptyDB : DB :=
  { clubs := fun _ => none, students := fun _ => none, memberships := [],
    club_members := fun _ => none, student_memberships := fun _ => none }

/-- Point update of a keyed collection (`set` / `delete` of one document). -/
def upd {α : Type} (m : String → Option α) (k : String) (v : Option α) :
    String → Option α :=
  fun k' => if k' = k then v else m k'

theorem upd_self {α : Type} (m : String → Option α) (k : String) (v : Option α) :
    upd m k v k = v := by simp [upd]

theorem upd_ne {α : Type} (m : String → Option α) (k k' : String) (v : Option α)
    (h : k' ≠ k) : upd m k v k' = m k' := by simp [upd, h]

/-- The result of the query
`memberships.where("club_id", "==", c).where("student_id", "==", t)`. -/
def rowsFor (s : DB) (c t : String) : List (String × MembershipRow) :=
  s.memberships.filter (fun p => p.2.club_id == c && p.2.student_id == t)

/-- The entry stored for student `t` in the `club_members` document of club `c`
(`none` when the document or field is absent). -/
def cmEntry (s : DB) (c t : String) : Option Entry :=
  getk ((s.club_members c).getD []) t

/-- The entry stored for club `c` in the `student_memberships` document of
student `t` (`none` when the document or field is absent). -/
def smEntry (s : DB) (t c : String) : Option Entry :=
  getk ((s.student_memberships t).getD []) c

/-- `utils/validators.py` `ALLOWED_ROLES`, also inlined as `allowed` in
`update_member_role`. -/
def allowedRoles : List String :=
  ["Member", "Officer", "President", "Vice President", "Treasurer", "Secretary"]

/-- Python `str.strip`: drop whitespace from both ends, modelled over the
character list. -/
def pyStrip (s : String) : String :=
  ⟨((s.data.dropWhile fun c => c.isWhitespace).reverse.dropWhile
      fun c => c.isWhitespace).reverse⟩

/-- Python `str.lower`, modelled over the character list (the repository only
handles ASCII emails). -/
def pyLower (s : String) : String := ⟨s.data.map Char.toLower⟩

/-- `validators.normalize_email` / the `strip().lower()` in `create_student`. -/
def normalizeEmail (e : String) : String := pyLower (pyStrip e)

/-! ## Operations of `FirebaseDB`

Each operation returns the call result together with the post-state. A raised
exception is `.error msg` with the message of the `ValueError` raised by
`firebase_config.py`, or `"No document to update"` for a Firestore `update` on
a missing document (which aborts the whole batch/transaction it is part of).
An operation that raises leaves the state unchanged whenever all its writes
sit in the single batch/transaction that failed.
-/

/-- Dict input of `create_club`; `created_at`/`member_count` may already be
present (the code uses `setdefault`). -/
structure ClubInput where
  name : String
  description : String
  category : Option String
  meeting_time : Option String
  created_at : Option String
  member_count : Option Int
deriving DecidableEq, Repr

/-- `FirebaseDB.create_club`: `setdefault` the timestamp and the zero count,
then `set` a fresh document. Never raises. -/
def createClub (s : DB) (input : ClubInput) (newId now : String) : DB × String :=
  let club : Club :=
    { name := input.name, description := input.description,
      category := input.category, meeting_time := input.meeting_time,
      created_at := input.created_at.getD now,
      member_count := input.member_count.getD 0 }
  ({ s with clubs := upd s.clubs newId (some club) }, newId)

/-- Partial-update input of `update_club` (the route passes at most
`name`, `description`, `category`, `meeting_time`); an outer `some` means the
field is present in the update dict. -/
structure ClubUpdate where
  name : Option String
  description : Option String
  category : Option (Option String)
  meeting_time : Option (Option String)
deriving DecidableEq, Repr

/-- `FirebaseDB.update_club`: Firestore `update` merges the given fields and
raises if the document is missing. -/
def updateClub (s : DB) (club_id : String) (u : ClubUpdate) :
    Except String Unit × DB :=
  match s.clubs club_id with
  | none => (.error "No document to update", s)
  | some c =>
    (.ok (), { s with clubs := upd s.clubs club_id (some
      { c with name := u.name.getD c.name,
               description := u.description.getD c.description,
               category := u.category.getD c.category,
               meeting_time := u.meeting_time.getD c.meeting_time }) })

/-- The per-student cascade loop of `delete_club`: for each affected student
whose `student_memberships` document exists and still has the club key,
delete that field. -/
def smEraseFold (club_id : String) (L : List String) (m : String → Option Doc) :
    String → Option Doc :=
  L.foldl (fun acc t =>
    match acc t with
    | some d =>
      if (getk d club_id).isSome then upd acc t (some (eraseKey club_id d)) else acc
    | none => acc) m

/-- `FirebaseDB.delete_club` (the second, effective definition, lines 92-137):
check existence, batch-delete the club's membership rows, its `club_members`
document and the club document, then drop the club key from each affected
student's `student_memberships` document. The per-student loop is modelled by
a fold over the deduplicated affected-student list (the code iterates a set). -/
def deleteClub (s : DB) (club_id : String) : Except String Unit × DB :=
  match s.clubs club_id with
  | none => (.error "Club not found", s)
  | some _ =>
    let membershipDocs := s.memberships.filter (fun p => p.2.club_id == club_id)
    let affected :=
      ((membershipDocs.map (fun p => p.2.student_id)).filter (fun t => t != "")).dedup
    let s1 : DB :=
      { s with
        memberships := s.memberships.filter (fun p => !(p.2.club_id == club_id)),
        club_members := upd s.club_members club_id none,
        clubs := upd s.clubs club_id none }
    (.ok (), { s1 with
      student_memberships := smEraseFold club_id affected s1.student_memberships })

/-- Dict input of `create_student`. -/
structure StudentInput where
  name : String
  email : Option String
  created_at : Option String
deriving DecidableEq, Repr

/-- `FirebaseDB.create_student`: normalize a present non-empty email,
`setdefault` the timestamp, `set` a fresh document. Never raises. -/
def createStudent (s : DB) (input : StudentInput) (newId now : String) :
    DB × String :=
  let email := match input.email with
    | some e => some (if e = "" then e else normalizeEmail e)
    | none => none
  let st : Student :=
    { name := input.name, email := email, created_at := input.created_at.getD now }
  ({ s with students := upd s.students newId (some st) }, newId)

/-- Partial-update input of `update_student`. -/
structure StudentUpdate where
  name : Option String
  email : Option String
deriving DecidableEq, Repr

/-- `FirebaseDB.update_student`: normalize a present non-empty email, then
Firestore `update` (raises on a missing document). -/
def updateStudent (s : DB) (student_id : String) (u : StudentUpdate) :
    Except String Unit × DB :=
  let email := match u.email with
    | some e => some (if e = "" then e else normalizeEmail e)
    | none => none
  match s.students student_id with
  | none => (.error "No document to update", s)
  | some st =>
    (.ok (), { s with students := upd s.students student_id (some
      { st with name := u.name.getD st.name,
                email := match email with | some e => some e | none => st.email }) })

/-- `FirebaseDB.get_club_members`: read the `club_members` document, join each
entry with the student record and *skip entries whose student document is
missing*. The source additionally sorts the result by student name; ordering
is irrelevant to every property proved here, only the multiset of members and
in particular the length are used. -/
def getClubMembers (s : DB) (club_id : String) :
    List (String × Student × Entry) :=
  match s.club_members club_id with
  | none => []
  | some cm => cm.filterMap (fun p =>
      match s.students p.1 with
      | none => none
      | some st => some (p.1, st, p.2))

/-- `FirebaseDB.update_club_member_count`: recompute the count from
`get_club_members` and `update` the club document. -/
def updateClubMemberCount (s : DB) (club_id : String) :
    Except String (DB × Int) :=
  let count : Int := (getClubMembers s club_id).length
  match s.clubs club_id with
  | none => .error "No document to update"
  | some c =>
    .ok ({ s with clubs := upd s.clubs club_id (some { c with member_count := count }) },
      count)

/-- The cascade loops of `delete_student`: remove the student key from the
`club_members` document of every affected club (inside the batch). -/
def cmEraseFold (student_id : String) (L : List String)
    (m : String → Option Doc) : String → Option Doc :=
  L.foldl (fun acc c =>
    match acc c with
    | some d => upd acc c (some (eraseKey student_id d))
    | none => acc) m

/-- The best-effort recount loop of `delete_student`: recompute
`member_count` for each affected club, ignoring individual failures. -/
def recountFold (L : List String) (s : DB) : DB :=
  L.foldl (fun acc c =>
    match updateClubMemberCount acc c with
    | .ok (s', _) => s'
    | .error _ => acc) s

/-- The affected-club set of `delete_student`: club ids of the student's
membership rows, skipping falsy ids, collected as a set (modelled by `dedup`). -/
def affectedClubs (s : DB) (student_id : String) : List String :=
  (((s.memberships.filter (fun p => p.2.student_id == student_id)).map
    (fun p => p.2.club_id)).filter (fun c => c != "")).dedup

/-- `FirebaseDB.delete_student`: check existence, collect the student's
membership rows and affected clubs, batch-delete the rows, the student key of
each affected `club_members` document, the `student_memberships` document and
the student document (a `batch.update` on a missing `club_members` document
aborts the whole batch), then best-effort recount every affected club. -/
def deleteStudent (s : DB) (student_id : String) : Except String Unit × DB :=
  match s.students student_id with
  | none => (.error "Student not found", s)
  | some _ =>
    if ∃ c ∈ affectedClubs s student_id, s.club_members c = none then
      (.error "No document to update", s)
    else
      (.ok (), recountFold (affectedClubs s student_id)
        { s with
          memberships := s.memberships.filter (fun p => !(p.2.student_id == student_id)),
          club_members := cmEraseFold student_id (affectedClubs s student_id) s.club_members,
          student_memberships := upd s.student_memberships student_id none,
          students := upd s.students student_id none })

/-- `FirebaseDB.add_member_to_club`: two duplicate checks (membership query,
then the `club_members` document), then one batch that creates the membership
row, writes both index entries and bumps `member_count` read just before the
batch; `batch.update` on a missing club document aborts the whole batch. -/
def addMemberToClub (s : DB) (club_id student_id role newMid now : String) :
    Except String String × DB :=
  if rowsFor s club_id student_id ≠ [] then
    (.error "Student is already a member of this club", s)
  else if (cmEntry s club_id student_id).isSome then
    (.error "Student is already a member of this club", s)
  else
    match s.clubs club_id with
    | none => (.error "No document to update", s)
    | some club =>
      let entry : Entry :=
        { membership_id := newMid, role := role, join_date := now }
      let row : MembershipRow :=
        { club_id := club_id, student_id := student_id, role := role, join_date := now }
      (.ok newMid,
        { s with
          memberships := setKey newMid row s.memberships,
          club_members := upd s.club_members club_id
            (some (setKey student_id entry ((s.club_members club_id).getD []))),
          student_memberships := upd s.student_memberships student_id
            (some (setKey club_id entry ((s.student_memberships student_id).getD []))),
          clubs := upd s.clubs club_id
            (some { club with member_count := club.member_count + 1 }) })

/-- `FirebaseDB.remove_member_from_club`: one transaction that queries the
pair with `limit(1)`, deletes the returned row, drops both index fields when
their documents exist, and floors the decremented count at 0; the final
`transaction.update` on a missing club document aborts the transaction. -/
def removeMemberFromClub (s : DB) (club_id student_id : String) :
    Except String Unit × DB :=
  match rowsFor s club_id student_id with
  | [] => (.error "Membership not found", s)
  | (mid, _) :: _ =>
    let memberships := eraseKey mid s.memberships
    let club_members := match s.club_members club_id with
      | some cm => upd s.club_members club_id (some (eraseKey student_id cm))
      | none => s.club_members
    let student_memberships := match s.student_memberships student_id with
      | some sm => upd s.student_memberships student_id (some (eraseKey club_id sm))
      | none => s.student_memberships
    match s.clubs club_id with
    | none => (.error "No document to update", s)
    | some club =>
      (.ok (),
        { s with
          memberships := memberships,
          club_members := club_members,
          student_memberships := student_memberships,
          clubs := upd s.clubs club_id
            (some { club with member_count := max 0 (club.member_count - 1) }) })

/-- A Firestore dotted-path update `{key}.role`: overwrite the `role` field of
the nested map, creating the map (with its other fields missing, read back as
`""`) when the key is absent. -/
def setRoleField (d : Doc) (k new_role : String) : Doc :=
  match getk d k with
  | some e => setKey k { e with role := new_role } d
  | none => setKey k { membership_id := "", role := new_role, join_date := "" } d

/-- `FirebaseDB.update_member_role`: reject roles outside the enum, then one
transaction that finds the pair's row with `limit(1)`, overwrites its role and
the `role` field of both index entries, raising when either denormalized
document is missing. -/
def updateMemberRole (s : DB) (club_id student_id new_role : String) :
    Except String Unit × DB :=
  if new_role ∉ allowedRoles then
    (.error "Invalid role", s)
  else
    match rowsFor s club_id student_id with
    | [] => (.error "Membership not found", s)
    | (mid, row) :: _ =>
      match s.club_members club_id with
      | none => (.error "Denormalized club_members missing", s)
      | some cm =>
        match s.student_memberships student_id with
        | none => (.error "Denormalized student_memberships missing", s)
        | some sm =>
          (.ok (),
            { s with
              memberships := setKey mid { row with role := new_role } s.memberships,
              club_members := upd s.club_members club_id
                (some (setRoleField cm student_id new_role)),
              student_memberships := upd s.student_memberships student_id
                (some (setRoleField sm club_id new_role)) })

/-! ## Reachable store states

`Reach g s` holds when `s` can be produced from an empty database by the
`FirebaseDB` operations, invoked as the application layer (`app.py`) invokes
them: create/update inputs carry only the fields the routes pass (in
particular no caller-chosen `member_count`/`created_at`), generated document
ids are fresh for their collection and non-empty, and membership operations
are called with non-empty ids (Firestore rejects an empty document id).

The flag records the one check `app.py` performs that `FirebaseDB` itself
does not: with `g = true`, `add_member_to_club` is only invoked for an
existing student (the route returns 404 before calling the store otherwise);
with `g = false` the store is exercised directly with no such guarantee.
-/
inductive Reach : Bool → DB → Prop where
  | init (g : Bool) : Reach g emptyDB
  | step_createClub (g : Bool) (s : DB) (input : ClubInput) (newId now : String) :
      Reach g s → input.created_at = none → input.member_count = none →
      s.clubs newId = none → newId ≠ "" →
      Reach g (createClub s input newId now).1
  | step_updateClub (g : Bool) (s : DB) (club_id : String) (u : ClubUpdate) :
      Reach g s → Reach g (updateClub s club_id u).2
  | step_deleteClub (g : Bool) (s : DB) (club_id : String) :
      Reach g s → Reach g (deleteClub s club_id).2
  | step_createStudent (g : Bool) (s : DB) (input : StudentInput) (newId now : String) :
      Reach g s → input.created_at = none →
      s.students newId = none → newId ≠ "" →
      Reach g (createStudent s input newId now).1
  | step_updateStudent (g : Bool) (s : DB) (student_id : String) (u : StudentUpdate) :
      Reach g s → Reach g (updateStudent s student_id u).2
  | step_deleteStudent (g : Bool) (s : DB) (student_id : String) :
      Reach g s → Reach g (deleteStudent s student_id).2
  | step_addMember (g : Bool) (s : DB) (club_id student_id role newMid now : String) :
      Reach g s → club_id ≠ "" → student_id ≠ "" →
      getk s.memberships newMid = none → newMid ≠ "" →
      (g = true → (s.students student_id).isSome) →
      Reach g (addMemberToClub s club_id student_id role newMid now).2
  | step_removeMember (g : Bool) (s : DB) (club_id student_id : String) :
      Reach g s → Reach g (removeMemberFromClub s club_id student_id).2
  | step_updateRole (g : Bool) (s : DB) (club_id student_id new_role : String) :
      Reach g s → Reach g (updateMemberRole s club_id student_id new_role).2
  | step_recount (g : Bool) (s : DB) (club_id : String) :
      Reach g s →
      Reach g (match updateClubMemberCount s club_id with
               | .ok (s', _) => s'
               | .error _ => s)

/-! ## Concrete example states (used by witnesses and counterexamples) -/

def exClubInput : ClubInput :=
  { name := "Chess Club", description := "weekly tournaments",
    category := none, meeting_time := none, created_at := none, member_count := none }

def exStudentInput : StudentInput :=
  { name := "Alice", email := some "alice@example.com", created_at := none }

/-- One club `C1`. -/
def exS1 : DB := (createClub emptyDB exClubInput "C1" "t0").1

/-- Club `C1` and student `S1`. -/
def exS2 : DB := (createStudent exS1 exStudentInput "S1" "t1").1

/-- Club `C1`, student `S1`, and `S1` a member of `C1` with role `President`. -/
def exS3 : DB := (addMemberToClub exS2 "C1" "S1" "President" "M1" "t2").2

theorem reach_exS1 (g : Bool) : Reach g exS1 :=
  Reach.step_createClub g emptyDB exClubInput "C1" "t0" (Reach.init g)
    rfl rfl rfl (by decide)

theorem reach_exS2 (g : Bool) : Reach g exS2 :=
  Reach.step_createStudent g exS1 exStudentInput "S1" "t1" (reach_exS1 g)
    rfl rfl (by decide)

theorem reach_exS3 (g : Bool) : Reach g exS3 :=
  Reach.step_addMember g exS2 "C1" "S1" "President" "M1" "t2" (reach_exS2 g)
    (by decide) (by decide) rfl (by decide) (fun _ => by decide)

example : (addMemberToClub exS2 "C1" "S1" "President" "M1" "t2").1 = .ok "M1" := rfl
example : exS3.clubs "C1" =
    some ⟨"Chess Club", "weekly tournaments", none, none, "t0", 1⟩ := by decide
example : cmEntry exS3 "C1" "S1" = some ⟨"M1", "President", "t2"⟩ := by decide
example : smEntry exS3 "S1" "C1" = some ⟨"M1", "President", "t2"⟩ := by decide

/-- `exS2` plus a membership of `C1` for a student id `GHOST` that has no
student document: `add_member_to_club` performs no student-existence check,
so the call succeeds. -/
def exGhost1 : DB := (addMemberToClub exS2 "C1" "GHOST" "Member" "M1" "t2").2

/-- `exGhost1` plus the real student `S1` as a member of `C1`. -/
def exGhost2 : DB := (addMemberToClub exGhost1 "C1" "S1" "Member" "M2" "t3").2

example : (addMemberToClub exS2 "C1" "GHOST" "Member" "M1" "t2").1 = .ok "M1" := rfl
example : (addMemberToClub exGhost1 "C1" "S1" "Member" "M2" "t3").1 = .ok "M2" := rfl
example : (deleteStudent exGhost2 "S1").1 = .ok () := rfl
example : (deleteStudent exGhost2 "S1").2.clubs "C1" =
    some ⟨"Chess Club", "weekly tournaments", none, none, "t0", 0⟩ := by decide
example : (((deleteStudent exGhost2 "S1").2.club_members "C1").getD []).length = 1 := by decide

/-- Two `create_student` calls whose emails normalize to the same string:
`create_student` performs no uniqueness check. -/
def exDupEmails : DB :=
  (createStudent
    ((createStudent emptyDB
        { name := "Alice", email := some " Alice@Example.COM ", created_at := none }
        "S1" "t0").1)
    { name := "Bob", email := some "ALICE@example.com", created_at := none }
    "S2" "t1").1

example : exDupEmails.students "S1" =
    some ⟨"Alice", some "alice@example.com", "t0"⟩ := by decide
example : exDupEmails.students "S2" =
    some ⟨"Bob", some "alice@example.com", "t1"⟩ := by decide

/-! ## The inductive invariant

`StoreInv false` collects the structural facts that hold in every store-reachable
state; the two fields guarded by `g = true` additionally hold when
`add_member_to_club` is only invoked for existing students (as `app.py`
guarantees): the cached `member_count` matches the size of the `club_members`
document, and every indexed member has a student document.
-/
structure StoreInv (g : Bool) (s : DB) : Prop where
  m_nodup : (keys s.memberships).Nodup
  cm_nodup : ∀ c d, s.club_members c = some d → (keys d).Nodup
  sm_nodup : ∀ t d, s.student_memberships t = some d → (keys d).Nodup
  row_club : ∀ p ∈ s.memberships, (s.clubs (p.2.club_id)).isSome
  row_cne : ∀ p ∈ s.memberships, p.2.club_id ≠ ""
  row_sne : ∀ p ∈ s.memberships, p.2.student_id ≠ ""
  one_row : ∀ c t, (rowsFor s c t).length ≤ 1
  cm_row : ∀ c t, (cmEntry s c t).isSome ↔ rowsFor s c t ≠ []
  sm_row : ∀ c t, (smEntry s t c).isSome ↔ rowsFor s c t ≠ []
  cm_clubs : ∀ c, (s.club_members c).isSome → (s.clubs c).isSome
  emails_norm : ∀ id st e, s.students id = some st → st.email = some e →
    e = "" ∨ ∃ raw, e = normalizeEmail raw
  counts : g = true → ∀ c club, s.clubs c = some club →
    club.member_count = (((s.club_members c).getD []).length : Int)
  cm_students : g = true → ∀ c d, s.club_members c = some d →
    ∀ p ∈ d, (s.students (p.1)).isSome

theorem inv_empty (g : Bool) : StoreInv g emptyDB := by
  constructor <;> simp [emptyDB, rowsFor, cmEntry, smEntry, keys]

theorem rowsFor_sub (s : DB) (c t : String) (p : String × MembershipRow)
    (h : p ∈ rowsFor s c t) :
    p ∈ s.memberships ∧ p.2.club_id = c ∧ p.2.student_id = t := by
  have := List.mem_filter.mp h
  refine ⟨this.1, ?_, ?_⟩
  · have := this.2
    simp only [Bool.and_eq_true, beq_iff_eq] at this
    exact this.1
  · have := this.2
    simp only [Bool.and_eq_true, beq_iff_eq] at this
    exact this.2

theorem mem_rowsFor (s : DB) (c t : String) (p : String × MembershipRow)
    (hm : p ∈ s.memberships) (hc : p.2.club_id = c) (ht : p.2.student_id = t) :
    p ∈ rowsFor s c t := by
  refine List.mem_filter.mpr ⟨hm, ?_⟩
  simp [hc, ht]

/-- A pair is active exactly when the pair's query returns a single row
consisting of the unique membership document of the pair. -/
theorem rowsFor_singleton {g : Bool} {s : DB} (hinv : StoreInv g s) {c t mid : String}
    {row : MembershipRow} {rest : List (String × MembershipRow)}
    (h : rowsFor s c t = (mid, row) :: rest) :
    rest = [] ∧ (mid, row) ∈ s.memberships ∧ row.club_id = c ∧ row.student_id = t ∧
      getk s.memberships mid = some row := by
  have hlen := hinv.one_row c t
  rw [h] at hlen
  simp only [List.length_cons] at hlen
  have hrest : rest = [] := by
    cases rest with
    | nil => rfl
    | cons q qs =>
      exfalso
      simp only [List.length_cons] at hlen
      omega
  have hmem : (mid, row) ∈ rowsFor s c t := by simp [h]
  obtain ⟨hm, hc, ht⟩ := rowsFor_sub s c t _ hmem
  exact ⟨hrest, hm, hc, ht, getk_of_mem_nodup _ _ _ hinv.m_nodup hm⟩

/-! ### Preservation: `create_club` -/

theorem inv_createClub (g : Bool) (s : DB) (input : ClubInput) (newId now : String)
    (hinv : StoreInv g s) (hmc : input.member_count = none)
    (hfresh : s.clubs newId = none) :
    StoreInv g (createClub s input newId now).1 := by
  set s' := (createClub s input newId now).1 with hs'
  have hclubs : s'.clubs = upd s.clubs newId (some
      { name := input.name, description := input.description,
        category := input.category, meeting_time := input.meeting_time,
        created_at := input.created_at.getD now,
        member_count := input.member_count.getD 0 }) := rfl
  have hst : s'.students = s.students := rfl
  have hm : s'.memberships = s.memberships := rfl
  have hcm : s'.club_members = s.club_members := rfl
  have hsm : s'.student_memberships = s.student_memberships := rfl
  have hrows : ∀ c t, rowsFor s' c t = rowsFor s c t := fun _ _ => rfl
  have hcmn : s.club_members newId = none := by
    rcases hh : s.club_members newId with _ | d
    · rfl
    · have := hinv.cm_clubs newId (by simp [hh])
      rw [hfresh] at this
      simp at this
  refine ⟨?_, ?_, ?_, ?_, ?_, ?_, ?_, ?_, ?_, ?_, ?_, ?_, ?_⟩
  · rw [hm]; exact hinv.m_nodup
  · rw [hcm]; exact hinv.cm_nodup
  · rw [hsm]; exact hinv.sm_nodup
  · intro p hp
    rw [hm] at hp
    rw [hclubs]
    by_cases hc : p.2.club_id = newId
    · simp [upd, hc]
    · rw [upd_ne _ _ _ _ hc]
      exact hinv.row_club p hp
  · rw [hm]; exact hinv.row_cne
  · rw [hm]; exact hinv.row_sne
  · intro c t; rw [hrows]; exact hinv.one_row c t
  · intro c t
    rw [hrows]
    exact hinv.cm_row c t
  · intro c t
    rw [hrows]
    exact hinv.sm_row c t
  · intro c hc
    rw [hcm] at hc
    rw [hclubs]
    by_cases hcn : c = newId
    · simp [upd, hcn]
    · rw [upd_ne _ _ _ _ hcn]
      exact hinv.cm_clubs c hc
  · rw [hst]; exact hinv.emails_norm
  · intro hg c club hc
    rw [hclubs] at hc
    rw [hcm]
    by_cases hcn : c = newId
    · subst hcn
      rw [upd_self] at hc
      simp only [Option.some_inj] at hc
      rw [hcmn, ← hc]
      simp [hmc]
    · rw [upd_ne _ _ _ _ hcn] at hc
      exact hinv.counts hg c club hc
  · intro hg c d hc
    rw [hcm] at hc
    rw [hst]
    exact hinv.cm_students hg c d hc

/-! ### Preservation: `update_club` -/

theorem inv_updateClub (g : Bool) (s : DB) (club_id : String) (u : ClubUpdate)
    (hinv : StoreInv g s) : StoreInv g (updateClub s club_id u).2 := by
  rcases hc : s.clubs club_id with _ | c
  · have : (updateClub s club_id u).2 = s := by
      simp [updateClub, hc]
    rw [this]; exact hinv
  · have h2 : (updateClub s club_id u).2 = { s with clubs := upd s.clubs club_id (some
      { c with name := u.name.getD c.name,
               description := u.description.getD c.description,
               category := u.category.getD c.category,
               meeting_time := u.meeting_time.getD c.meeting_time }) } := by
      simp [updateClub, hc]
    rw [h2]
    refine ⟨hinv.m_nodup, hinv.cm_nodup, hinv.sm_nodup, ?_, hinv.row_cne, hinv.row_sne,
      hinv.one_row, hinv.cm_row, hinv.sm_row, ?_, hinv.emails_norm, ?_, hinv.cm_students⟩
    · intro p hp
      by_cases hcn : p.2.club_id = club_id
      · simp [upd, hcn]
      · show (upd s.clubs club_id _ (p.2.club_id)).isSome
        rw [upd_ne _ _ _ _ hcn]
        exact hinv.row_club p hp
    · intro c' hc'
      by_cases hcn : c' = club_id
      · simp [upd, hcn]
      · show (upd s.clubs club_id _ c').isSome
        rw [upd_ne _ _ _ _ hcn]
        exact hinv.cm_clubs c' hc'
    · intro hg c' club' hc'
      have hc2 : upd s.clubs club_id (some
          { c with name := u.name.getD c.name,
                   description := u.description.getD c.description,
                   category := u.category.getD c.category,
                   meeting_time := u.meeting_time.getD c.meeting_time }) c' = some club' := hc'
      by_cases hcn : c' = club_id
      · subst hcn
        rw [upd_self] at hc2
        simp only [Option.some_inj] at hc2
        rw [← hc2]
        exact hinv.counts hg _ c hc
      · rw [upd_ne _ _ _ _ hcn] at hc2
        exact hinv.counts hg c' club' hc2

/-! ### Preservation: `create_student`, `update_student` -/

theorem inv_createStudent (g : Bool) (s : DB) (input : StudentInput) (newId now : String)
    (hinv : StoreInv g s) : StoreInv g (createStudent s input newId now).1 := by
  set s' := (createStudent s input newId now).1 with hs'
  have hst : s'.students = upd s.students newId (some
      { name := input.name,
        email := match input.email with
          | some e => some (if e = "" then e else normalizeEmail e)
          | none => none,
        created_at := input.created_at.getD now }) := rfl
  refine ⟨hinv.m_nodup, hinv.cm_nodup, hinv.sm_nodup, hinv.row_club, hinv.row_cne,
    hinv.row_sne, hinv.one_row, hinv.cm_row, hinv.sm_row, hinv.cm_clubs, ?_,
    hinv.counts, ?_⟩
  · intro id st e hid he
    rw [hst] at hid
    by_cases hn : id = newId
    · subst hn
      rw [upd_self] at hid
      simp only [Option.some_inj] at hid
      rw [← hid] at he
      rcases hi : input.email with _ | e0
      · simp [hi] at he
      · simp only [hi] at he
        by_cases he0 : e0 = ""
        · simp only [he0, if_pos rfl, Option.some_inj] at he
          exact Or.inl (he ▸ he0.symm ▸ rfl)
        · simp only [if_neg he0, Option.some_inj] at he
          exact Or.inr ⟨e0, he.symm⟩
    · rw [upd_ne _ _ _ _ hn] at hid
      exact hinv.emails_norm id st e hid he
  · intro hg c d hc p hp
    rw [hst]
    by_cases hn : p.1 = newId
    · simp [upd, hn]
    · rw [upd_ne _ _ _ _ hn]
      exact hinv.cm_students hg c d hc p hp

theorem inv_updateStudent (g : Bool) (s : DB) (student_id : String) (u : StudentUpdate)
    (hinv : StoreInv g s) : StoreInv g (updateStudent s student_id u).2 := by
  rcases hst : s.students student_id with _ | st
  · have : (updateStudent s student_id u).2 = s := by
      simp [updateStudent, hst]
    rw [this]; exact hinv
  · set stNew : Student :=
      { st with name := u.name.getD st.name,
                email := match (match u.email with
                    | some e => some (if e = "" then e else normalizeEmail e)
                    | none => none) with
                  | some e => some e
                  | none => st.email } with hstNew
    have h2 : (updateStudent s student_id u).2 =
        { s with students := upd s.students student_id (some stNew) } := by
      simp only [updateStudent, hst]
    rw [h2]
    refine ⟨hinv.m_nodup, hinv.cm_nodup, hinv.sm_nodup, hinv.row_club, hinv.row_cne,
      hinv.row_sne, hinv.one_row, hinv.cm_row, hinv.sm_row, hinv.cm_clubs, ?_,
      hinv.counts, ?_⟩
    · intro id st' e hid he
      have hid2 : upd s.students student_id (some stNew) id = some st' := hid
      by_cases hn : id = student_id
      · subst hn
        rw [upd_self] at hid2
        simp only [Option.some_inj] at hid2
        rw [← hid2] at he
        rcases hu : u.email with _ | e0
        · simp only [hstNew, hu] at he
          exact hinv.emails_norm id st e hst he
        · simp only [hstNew, hu] at he
          by_cases he0 : e0 = ""
          · simp only [he0, if_pos rfl, Option.some_inj] at he
            exact Or.inl (he ▸ he0.symm ▸ rfl)
          · simp only [if_neg he0, Option.some_inj] at he
            exact Or.inr ⟨e0, he.symm⟩
      · rw [upd_ne _ _ _ _ hn] at hid2
        exact hinv.emails_norm id st' e hid2 he
    · intro hg c d hc p hp
      show (upd s.students student_id (some stNew) (p.1)).isSome
      by_cases hn : p.1 = student_id
      · simp [upd, hn]
      · rw [upd_ne _ _ _ _ hn]
        exact hinv.cm_students hg c d hc p hp

/-! ### Preservation: `update_club_member_count` -/

theorem getClubMembers_length (g : Bool) (s : DB) (club_id : String)
    (hinv : StoreInv g s) (hg : g = true) :
    (getClubMembers s club_id).length = (((s.club_members club_id).getD []).length) := by
  rcases hc : s.club_members club_id with _ | cm
  · simp [getClubMembers, hc]
  · simp only [getClubMembers, hc, Option.getD_some]
    rw [List.length_filterMap_eq_countP]
    rw [List.countP_eq_length_filter]
    have : cm.filter (fun p => Option.isSome
        (match s.students p.1 with
         | none => none
         | some st => some (p.1, st, p.2))) = cm := by
      apply List.filter_eq_self.mpr
      intro p hp
      have := hinv.cm_students hg club_id cm hc p hp
      rcases hs : s.students p.1 with _ | st
      · rw [hs] at this; simp at this
      · simp [hs]
    rw [this]

theorem inv_recount (g : Bool) (s : DB) (club_id : String)
    (hinv : StoreInv g s) :
    StoreInv g (match updateClubMemberCount s club_id with
                | .ok (s', _) => s'
                | .error _ => s) := by
  rcases hc : s.clubs club_id with _ | c
  · simp only [updateClubMemberCount, hc]
    exact hinv
  · simp only [updateClubMemberCount, hc]
    set cNew : Club := { c with member_count := ((getClubMembers s club_id).length : Int) }
    refine ⟨hinv.m_nodup, hinv.cm_nodup, hinv.sm_nodup, ?_, hinv.row_cne,
      hinv.row_sne, hinv.one_row, hinv.cm_row, hinv.sm_row, ?_, hinv.emails_norm,
      ?_, hinv.cm_students⟩
    · intro p hp
      show (upd s.clubs club_id (some cNew) (p.2.club_id)).isSome
      by_cases hn : p.2.club_id = club_id
      · simp [upd, hn]
      · rw [upd_ne _ _ _ _ hn]
        exact hinv.row_club p hp
    · intro c' hc'
      show (upd s.clubs club_id (some cNew) c').isSome
      by_cases hn : c' = club_id
      · simp [upd, hn]
      · rw [upd_ne _ _ _ _ hn]
        exact hinv.cm_clubs c' hc'
    · intro hg c' club' hc'
      have hc2 : upd s.clubs club_id (some cNew) c' = some club' := hc'
      by_cases hn : c' = club_id
      · subst hn
        rw [upd_self] at hc2
        simp only [Option.some_inj] at hc2
        rw [← hc2]
        show ((getClubMembers s c').length : Int) = _
        rw [getClubMembers_length g s c' hinv hg]
      · rw [upd_ne _ _ _ _ hn] at hc2
        exact hinv.counts hg c' club' hc2

/-! ### Preservation: `add_member_to_club` -/

theorem inv_addMember (g : Bool) (s : DB) (club_id student_id role newMid now : String)
    (hinv : StoreInv g s) (hcne : club_id ≠ "") (hsne : student_id ≠ "")
    (hfresh : getk s.memberships newMid = none)
    (hguard : g = true → (s.students student_id).isSome) :
    StoreInv g (addMemberToClub s club_id student_id role newMid now).2 := by
  by_cases h1 : rowsFor s club_id student_id ≠ []
  · simp only [addMemberToClub, if_pos h1]
    exact hinv
  · by_cases h2 : (cmEntry s club_id student_id).isSome
    · simp only [addMemberToClub, if_neg h1, if_pos h2]
      exact hinv
    · rcases hc : s.clubs club_id with _ | club
      · simp only [addMemberToClub, if_neg h1, if_neg h2, hc]
        exact hinv
      · have hrows0 : rowsFor s club_id student_id = [] := not_not.mp h1
        set entry : Entry := { membership_id := newMid, role := role, join_date := now }
          with hentry
        set row : MembershipRow :=
          { club_id := club_id, student_id := student_id, role := role, join_date := now }
          with hrowdef
        set cm0 : Doc := (s.club_members club_id).getD [] with hcm0def
        set sm0 : Doc := (s.student_memberships student_id).getD [] with hsm0def
        have hcm0 : getk cm0 student_id = none :=
          Option.not_isSome_iff_eq_none.mp h2
        have hsm0 : getk sm0 club_id = none := by
          apply Option.not_isSome_iff_eq_none.mp
          intro hsome
          exact (hinv.sm_row club_id student_id).mp hsome hrows0
        have hcm0n : (keys cm0).Nodup := by
          rcases hh : s.club_members club_id with _ | d
          · simp [hcm0def, hh, keys]
          · rw [hcm0def, hh]
            exact hinv.cm_nodup club_id d hh
        have hsm0n : (keys sm0).Nodup := by
          rcases hh : s.student_memberships student_id with _ | d
          · simp [hsm0def, hh, keys]
          · rw [hsm0def, hh]
            exact hinv.sm_nodup student_id d hh
        have hres : (addMemberToClub s club_id student_id role newMid now).2 =
            { s with
              memberships := setKey newMid row s.memberships,
              club_members := upd s.club_members club_id
                (some (setKey student_id entry cm0)),
              student_memberships := upd s.student_memberships student_id
                (some (setKey club_id entry sm0)),
              clubs := upd s.clubs club_id
                (some { club with member_count := club.member_count + 1 }) } := by
          simp only [addMemberToClub, if_neg h1, if_neg h2, hc]
        rw [hres]
        set s' : DB :=
          { s with
            memberships := setKey newMid row s.memberships,
            club_members := upd s.club_members club_id
              (some (setKey student_id entry cm0)),
            student_memberships := upd s.student_memberships student_id
              (some (setKey club_id entry sm0)),
            clubs := upd s.clubs club_id
              (some { club with member_count := club.member_count + 1 }) } with hs'
        have hm' : s'.memberships = s.memberships ++ [(newMid, row)] := by
          rw [hs']
          exact setKey_of_getk_none _ _ _ hfresh
        have hchar : ∀ c t, rowsFor s' c t =
            rowsFor s c t ++ (if club_id = c ∧ student_id = t then [(newMid, row)] else []) := by
          intro c t
          show s'.memberships.filter _ = _
          rw [hm', List.filter_append]
          congr 1
          rcases hb : (club_id == c && student_id == t) with _ | _
          · rw [if_neg (fun hp => by rw [hp.1, hp.2] at hb; simp at hb)]
            simp [List.filter, hrowdef, hb]
          · simp only [Bool.and_eq_true, beq_iff_eq] at hb
            rw [if_pos hb]
            simp [List.filter, hrowdef, hb.1, hb.2]
        refine ⟨?_, ?_, ?_, ?_, ?_, ?_, ?_, ?_, ?_, ?_, ?_, ?_, ?_⟩
        · show (keys (setKey newMid row s.memberships)).Nodup
          exact keys_nodup_setKey _ _ _ hinv.m_nodup
        · intro c d hd
          have hd2 : upd s.club_members club_id (some (setKey student_id entry cm0)) c
              = some d := hd
          by_cases hcc : c = club_id
          · subst hcc
            rw [upd_self] at hd2
            simp only [Option.some_inj] at hd2
            rw [← hd2]
            exact keys_nodup_setKey _ _ _ hcm0n
          · rw [upd_ne _ _ _ _ hcc] at hd2
            exact hinv.cm_nodup c d hd2
        · intro t d hd
          have hd2 : upd s.student_memberships student_id (some (setKey club_id entry sm0)) t
              = some d := hd
          by_cases htt : t = student_id
          · subst htt
            rw [upd_self] at hd2
            simp only [Option.some_inj] at hd2
            rw [← hd2]
            exact keys_nodup_setKey _ _ _ hsm0n
          · rw [upd_ne _ _ _ _ htt] at hd2
            exact hinv.sm_nodup t d hd2
        · intro p hp
          rw [hm'] at hp
          show (upd s.clubs club_id
            (some { club with member_count := club.member_count + 1 }) (p.2.club_id)).isSome
          rcases List.mem_append.mp hp with hp | hp
          · by_cases hcc : p.2.club_id = club_id
            · simp [upd, hcc]
            · rw [upd_ne _ _ _ _ hcc]
              exact hinv.row_club p hp
          · simp only [List.mem_singleton] at hp
            subst hp
            simp [upd, hrowdef]
        · intro p hp
          rw [hm'] at hp
          rcases List.mem_append.mp hp with hp | hp
          · exact hinv.row_cne p hp
          · simp only [List.mem_singleton] at hp
            subst hp
            simpa [hrowdef] using hcne
        · intro p hp
          rw [hm'] at hp
          rcases List.mem_append.mp hp with hp | hp
          · exact hinv.row_sne p hp
          · simp only [List.mem_singleton] at hp
            subst hp
            simpa [hrowdef] using hsne
        · intro c t
          rw [hchar]
          by_cases hp : club_id = c ∧ student_id = t
          · rw [if_pos hp]
            rw [← hp.1, ← hp.2, hrows0]
            simp
          · rw [if_neg hp]
            simp only [List.append_nil]
            exact hinv.one_row c t
        · intro c t
          rw [hchar]
          show (getk ((upd s.club_members club_id (some (setKey student_id entry cm0)) c).getD []) t).isSome ↔ _
          by_cases hcc : c = club_id
          · subst hcc
            rw [upd_self]
            simp only [Option.getD_some]
            by_cases htt : t = student_id
            · subst htt
              rw [getk_setKey_self]
              simp
            · rw [getk_setKey_ne _ _ _ _ htt]
              rw [if_neg (fun hp => htt hp.2.symm)]
              simp only [List.append_nil]
              exact hinv.cm_row c t
          · rw [upd_ne _ _ _ _ hcc]
            rw [if_neg (fun hp => hcc hp.1.symm)]
            simp only [List.append_nil]
            exact hinv.cm_row c t
        · intro c t
          rw [hchar]
          show (getk ((upd s.student_memberships student_id (some (setKey club_id entry sm0)) t).getD []) c).isSome ↔ _
          by_cases htt : t = student_id
          · subst htt
            rw [upd_self]
            simp only [Option.getD_some]
            by_cases hcc : c = club_id
            · subst hcc
              rw [getk_setKey_self]
              simp
            · rw [getk_setKey_ne _ _ _ _ hcc]
              rw [if_neg (fun hp => hcc hp.1.symm)]
              simp only [List.append_nil]
              exact hinv.sm_row c t
          · rw [upd_ne _ _ _ _ htt]
            rw [if_neg (fun hp => htt hp.2.symm)]
            simp only [List.append_nil]
            exact hinv.sm_row c t
        · intro c hc'
          have hc2 : (upd s.club_members club_id (some (setKey student_id entry cm0)) c).isSome
              := hc'
          show (upd s.clubs club_id
            (some { club with member_count := club.member_count + 1 }) c).isSome
          by_cases hcc : c = club_id
          · simp [upd, hcc]
          · rw [upd_ne _ _ _ _ hcc] at hc2
            rw [upd_ne _ _ _ _ hcc]
            exact hinv.cm_clubs c hc2
        · exact hinv.emails_norm
        · intro hg c club' hc'
          have hc2 : upd s.clubs club_id
              (some { club with member_count := club.member_count + 1 }) c = some club' := hc'
          show club'.member_count =
            (((upd s.club_members club_id (some (setKey student_id entry cm0)) c).getD []).length : Int)
          by_cases hcc : c = club_id
          · subst hcc
            rw [upd_self] at hc2
            simp only [Option.some_inj] at hc2
            rw [← hc2, upd_self]
            simp only [Option.getD_some]
            show club.member_count + 1 = ((setKey student_id entry cm0).length : Int)
            rw [length_setKey_none _ _ _ hcm0]
            have hold := hinv.counts hg _ club hc
            rw [← hcm0def] at hold
            push_cast
            omega
          · rw [upd_ne _ _ _ _ hcc] at hc2
            rw [upd_ne _ _ _ _ hcc]
            exact hinv.counts hg c club' hc2
        · intro hg c d hd p hp
          have hd2 : upd s.club_members club_id (some (setKey student_id entry cm0)) c
              = some d := hd
          show (s.students (p.1)).isSome
          by_cases hcc : c = club_id
          · subst hcc
            rw [upd_self] at hd2
            simp only [Option.some_inj] at hd2
            rw [← hd2] at hp
            rcases mem_setKey _ _ _ _ hp with hp | hp
            · rw [hp]
              exact hguard hg
            · rcases hh : s.club_members c with _ | d0
              · rw [hcm0def, hh] at hp
                simp at hp
              · rw [hcm0def, hh] at hp
                exact hinv.cm_students hg c d0 hh p hp
          · rw [upd_ne _ _ _ _ hcc] at hd2
            exact hinv.cm_students hg c d hd2 p hp

/-! ### Preservation: `remove_member_from_club` -/

theorem inv_removeMember (g : Bool) (s : DB) (club_id student_id : String)
    (hinv : StoreInv g s) :
    StoreInv g (removeMemberFromClub s club_id student_id).2 := by
  rcases hq : rowsFor s club_id student_id with _ | ⟨⟨mid, row0⟩, rest⟩
  · simp only [removeMemberFromClub, hq]
    exact hinv
  · obtain ⟨hrest, hmem, hrc, hrs, hget⟩ := rowsFor_singleton hinv hq
    have hclub : (s.clubs club_id).isSome := hrc ▸ hinv.row_club (mid, row0) hmem
    rcases hc : s.clubs club_id with _ | club
    · rw [hc] at hclub; simp at hclub
    have hcme : (cmEntry s club_id student_id).isSome := by
      rw [hinv.cm_row, hq]
      simp
    have hsme : (smEntry s student_id club_id).isSome := by
      rw [hinv.sm_row, hq]
      simp
    rcases hcm : s.club_members club_id with _ | cm
    · rw [cmEntry, hcm] at hcme; simp at hcme
    rcases hsm : s.student_memberships student_id with _ | sm
    · rw [smEntry, hsm] at hsme; simp at hsme
    rw [cmEntry, hcm] at hcme
    rw [smEntry, hsm] at hsme
    simp only [Option.getD_some] at hcme hsme
    rcases Option.isSome_iff_exists.mp hcme with ⟨ecm, hecm⟩
    rcases Option.isSome_iff_exists.mp hsme with ⟨esm, hesm⟩
    have hcmn : (keys cm).Nodup := hinv.cm_nodup club_id cm hcm
    have hsmn : (keys sm).Nodup := hinv.sm_nodup student_id sm hsm
    have hres : (removeMemberFromClub s club_id student_id).2 =
        { s with
          memberships := eraseKey mid s.memberships,
          club_members := upd s.club_members club_id (some (eraseKey student_id cm)),
          student_memberships :=
            upd s.student_memberships student_id (some (eraseKey club_id sm)),
          clubs := upd s.clubs club_id
            (some { club with member_count := max 0 (club.member_count - 1) }) } := by
      simp only [removeMemberFromClub, hq, hcm, hsm, hc]
    rw [hres]
    have hmkeys : ∀ p : String × MembershipRow,
        p ∈ s.memberships → p.1 = mid → p.2 = row0 := by
      intro p hp hp1
      have := getk_of_mem_nodup s.memberships p.1 p.2 hinv.m_nodup hp
      rw [hp1, hget] at this
      simp only [Option.some_inj] at this
      exact this.symm
    have hchar : ∀ c t, rowsFor
        ({ s with
          memberships := eraseKey mid s.memberships,
          club_members := upd s.club_members club_id (some (eraseKey student_id cm)),
          student_memberships :=
            upd s.student_memberships student_id (some (eraseKey club_id sm)),
          clubs := upd s.clubs club_id
            (some { club with member_count := max 0 (club.member_count - 1) }) } : DB) c t =
        if club_id = c ∧ student_id = t then [] else rowsFor s c t := by
      intro c t
      show (eraseKey mid s.memberships).filter _ = _
      by_cases hp : club_id = c ∧ student_id = t
      · rw [if_pos hp]
        apply List.eq_nil_iff_forall_not_mem.mpr
        intro p hpmem
        have h3 := List.mem_filter.mp hpmem
        have hpm : p ∈ s.memberships := (eraseKey_sublist _ _).subset h3.1
        have hpr : p ∈ rowsFor s c t := List.mem_filter.mpr ⟨hpm, h3.2⟩
        rw [← hp.1, ← hp.2, hq] at hpr
        simp only [hrest, List.mem_singleton] at hpr
        subst hpr
        have : getk (eraseKey mid s.memberships) mid = none :=
          getk_eraseKey_self _ _ hinv.m_nodup
        have h4 : mid ∈ keys (eraseKey mid s.memberships) := by
          have := List.mem_map_of_mem Prod.fst h3.1
          exact this
        rw [getk_eq_none_iff] at this
        exact this h4
      · rw [if_neg hp]
        rw [eraseKey_eq_filter _ _ hinv.m_nodup, List.filter_filter]
        apply List.filter_congr
        intro p hpm
        rcases hb : (p.2.club_id == c && p.2.student_id == t) with _ | _
        · simp [hb]
        · have hbne : p.1 ≠ mid := by
            intro h1
            have h2 := hmkeys p hpm h1
            simp only [Bool.and_eq_true, beq_iff_eq] at hb
            rw [h2] at hb
            exact hp ⟨hrc ▸ hb.1, hrs ▸ hb.2⟩
          simp [hb, hbne]
    refine ⟨?_, ?_, ?_, ?_, ?_, ?_, ?_, ?_, ?_, ?_, ?_, ?_, ?_⟩
    · exact keys_nodup_eraseKey _ _ hinv.m_nodup
    · intro c d hd
      have hd2 : upd s.club_members club_id (some (eraseKey student_id cm)) c = some d := hd
      by_cases hcc : c = club_id
      · subst hcc
        rw [upd_self] at hd2
        simp only [Option.some_inj] at hd2
        rw [← hd2]
        exact keys_nodup_eraseKey _ _ hcmn
      · rw [upd_ne _ _ _ _ hcc] at hd2
        exact hinv.cm_nodup c d hd2
    · intro t d hd
      have hd2 : upd s.student_memberships student_id (some (eraseKey club_id sm)) t
          = some d := hd
      by_cases htt : t = student_id
      · subst htt
        rw [upd_self] at hd2
        simp only [Option.some_inj] at hd2
        rw [← hd2]
        exact keys_nodup_eraseKey _ _ hsmn
      · rw [upd_ne _ _ _ _ htt] at hd2
        exact hinv.sm_nodup t d hd2
    · intro p hp
      have hpm : p ∈ s.memberships := (eraseKey_sublist _ _).subset hp
      show (upd s.clubs club_id
        (some { club with member_count := max 0 (club.member_count - 1) }) (p.2.club_id)).isSome
      by_cases hcc : p.2.club_id = club_id
      · simp [upd, hcc]
      · rw [upd_ne _ _ _ _ hcc]
        exact hinv.row_club p hpm
    · intro p hp
      exact hinv.row_cne p ((eraseKey_sublist _ _).subset hp)
    · intro p hp
      exact hinv.row_sne p ((eraseKey_sublist _ _).subset hp)
    · intro c t
      rw [hchar]
      by_cases hp : club_id = c ∧ student_id = t
      · rw [if_pos hp]; simp
      · rw [if_neg hp]; exact hinv.one_row c t
    · intro c t
      rw [hchar]
      show (getk ((upd s.club_members club_id (some (eraseKey student_id cm)) c).getD []) t).isSome ↔ _
      by_cases hcc : c = club_id
      · subst hcc
        rw [upd_self]
        simp only [Option.getD_some]
        by_cases htt : t = student_id
        · subst htt
          rw [if_pos (by simp), getk_eraseKey_self _ _ hcmn]
          simp
        · rw [getk_eraseKey_ne _ _ _ htt,
            if_neg (fun hp => htt hp.2.symm)]
          have := hinv.cm_row c t
          rw [cmEntry, hcm] at this
          simpa using this
      · rw [upd_ne _ _ _ _ hcc, if_neg (fun hp => hcc hp.1.symm)]
        exact hinv.cm_row c t
    · intro c t
      rw [hchar]
      show (getk ((upd s.student_memberships student_id (some (eraseKey club_id sm)) t).getD []) c).isSome ↔ _
      by_cases htt : t = student_id
      · subst htt
        rw [upd_self]
        simp only [Option.getD_some]
        by_cases hcc : c = club_id
        · subst hcc
          rw [if_pos (by simp), getk_eraseKey_self _ _ hsmn]
          simp
        · rw [getk_eraseKey_ne _ _ _ hcc,
            if_neg (fun hp => hcc hp.1.symm)]
          have := hinv.sm_row c t
          rw [smEntry, hsm] at this
          simpa using this
      · rw [upd_ne _ _ _ _ htt, if_neg (fun hp => htt hp.2.symm)]
        exact hinv.sm_row c t
    · intro c hc'
      have hc2 : (upd s.club_members club_id (some (eraseKey student_id cm)) c).isSome := hc'
      show (upd s.clubs club_id
        (some { club with member_count := max 0 (club.member_count - 1) }) c).isSome
      by_cases hcc : c = club_id
      · simp [upd, hcc]
      · rw [upd_ne _ _ _ _ hcc] at hc2
        rw [upd_ne _ _ _ _ hcc]
        exact hinv.cm_clubs c hc2
    · exact hinv.emails_norm
    · intro hg c club' hc'
      have hc2 : upd s.clubs club_id
          (some { club with member_count := max 0 (club.member_count - 1) }) c
          = some club' := hc'
      show club'.member_count =
        (((upd s.club_members club_id (some (eraseKey student_id cm)) c).getD []).length : Int)
      by_cases hcc : c = club_id
      · subst hcc
        rw [upd_self] at hc2
        simp only [Option.some_inj] at hc2
        rw [← hc2, upd_self]
        simp only [Option.getD_some]
        show max 0 (club.member_count - 1) = ((eraseKey student_id cm).length : Int)
        have hold := hinv.counts hg c club hc
        rw [hcm] at hold
        simp only [Option.getD_some] at hold
        have hlen := length_eraseKey_some cm student_id ecm hecm
        omega
      · rw [upd_ne _ _ _ _ hcc] at hc2
        rw [upd_ne _ _ _ _ hcc]
        exact hinv.counts hg c club' hc2
    · intro hg c d hd p hp
      have hd2 : upd s.club_members club_id (some (eraseKey student_id cm)) c = some d := hd
      show (s.students (p.1)).isSome
      by_cases hcc : c = club_id
      · subst hcc
        rw [upd_self] at hd2
        simp only [Option.some_inj] at hd2
        rw [← hd2] at hp
        exact hinv.cm_students hg c cm hcm p ((eraseKey_sublist _ _).subset hp)
      · rw [upd_ne _ _ _ _ hcc] at hd2
        exact hinv.cm_students hg c d hd2 p hp

/-! ### Preservation: `update_member_role` -/

theorem filter_setKey_congr {α : Type} (m : List (String × α)) (k : String) (v v' : α)
    (pred : String × α → Bool) (hv : getk m k = some v) (hp : pred (k, v') = pred (k, v)) :
    ((setKey k v' m).filter pred).length = (m.filter pred).length ∧
    ((setKey k v' m).filter pred = [] ↔ m.filter pred = []) := by
  induction m with
  | nil => simp [getk] at hv
  | cons q rest ih =>
    obtain ⟨k₀, v₀⟩ := q
    by_cases h₀ : k₀ = k
    · subst h₀
      have hv2 : v₀ = v := by
        have hgv : getk ((k₀, v₀) :: rest) k₀ = some v₀ := by simp [getk]
        rw [hgv] at hv
        exact Option.some_inj.mp hv
      subst hv2
      simp only [setKey, if_pos rfl]
      rcases hb : pred (k₀, v₀) with _ | _
      · rw [hb] at hp
        simp [List.filter, hp, hb]
      · rw [hb] at hp
        simp [List.filter, hp, hb]
    · simp only [getk, if_neg h₀] at hv
      simp only [setKey, if_neg h₀]
      obtain ⟨ih1, ih2⟩ := ih hv
      rcases hb : pred (k₀, v₀) with _ | _
      · simp [List.filter, hb, ih1, ih2]
      · simp [List.filter, hb, ih1, ih2]

theorem inv_updateRole (g : Bool) (s : DB) (club_id student_id new_role : String)
    (hinv : StoreInv g s) :
    StoreInv g (updateMemberRole s club_id student_id new_role).2 := by
  by_cases hrole : new_role ∉ allowedRoles
  · simp only [updateMemberRole, if_pos hrole]
    exact hinv
  · rcases hq : rowsFor s club_id student_id with _ | ⟨⟨mid, row0⟩, rest⟩
    · simp only [updateMemberRole, if_neg hrole, hq]
      exact hinv
    · rcases hcm : s.club_members club_id with _ | cm
      · simp only [updateMemberRole, if_neg hrole, hq, hcm]
        exact hinv
      · rcases hsm : s.student_memberships student_id with _ | sm
        · simp only [updateMemberRole, if_neg hrole, hq, hcm, hsm]
          exact hinv
        · obtain ⟨hrest, hmem, hrc, hrs, hget⟩ := rowsFor_singleton hinv hq
          have hcme : (cmEntry s club_id student_id).isSome := by
            rw [hinv.cm_row, hq]; simp
          have hsme : (smEntry s student_id club_id).isSome := by
            rw [hinv.sm_row, hq]; simp
          rw [cmEntry, hcm] at hcme
          rw [smEntry, hsm] at hsme
          simp only [Option.getD_some] at hcme hsme
          rcases Option.isSome_iff_exists.mp hcme with ⟨ecm, hecm⟩
          rcases Option.isSome_iff_exists.mp hsme with ⟨esm, hesm⟩
          have hcmn : (keys cm).Nodup := hinv.cm_nodup club_id cm hcm
          have hsmn : (keys sm).Nodup := hinv.sm_nodup student_id sm hsm
          have hres : (updateMemberRole s club_id student_id new_role).2 =
              { s with
                memberships := setKey mid { row0 with role := new_role } s.memberships,
                club_members := upd s.club_members club_id
                  (some (setKey student_id { ecm with role := new_role } cm)),
                student_memberships := upd s.student_memberships student_id
                  (some (setKey club_id { esm with role := new_role } sm)) } := by
            simp only [updateMemberRole, if_neg hrole, hq, hcm, hsm, setRoleField,
              hecm, hesm]
          rw [hres]
          have hchar : ∀ c t,
              (rowsFor ({ s with
                memberships := setKey mid { row0 with role := new_role } s.memberships,
                club_members := upd s.club_members club_id
                  (some (setKey student_id { ecm with role := new_role } cm)),
                student_memberships := upd s.student_memberships student_id
                  (some (setKey club_id { esm with role := new_role } sm)) } : DB) c t).length
                = (rowsFor s c t).length ∧
              (rowsFor ({ s with
                memberships := setKey mid { row0 with role := new_role } s.memberships,
                club_members := upd s.club_members club_id
                  (some (setKey student_id { ecm with role := new_role } cm)),
                student_memberships := upd s.student_memberships student_id
                  (some (setKey club_id { esm with role := new_role } sm)) } : DB) c t = []
                ↔ rowsFor s c t = []) := by
            intro c t
            exact filter_setKey_congr s.memberships mid row0
              { row0 with role := new_role } _ hget rfl
          refine ⟨?_, ?_, ?_, ?_, ?_, ?_, ?_, ?_, ?_, ?_, hinv.emails_norm, ?_, ?_⟩
          · exact keys_nodup_setKey _ _ _ hinv.m_nodup
          · intro c d hd
            have hd2 : upd s.club_members club_id
                (some (setKey student_id { ecm with role := new_role } cm)) c = some d := hd
            by_cases hcc : c = club_id
            · subst hcc
              rw [upd_self] at hd2
              simp only [Option.some_inj] at hd2
              rw [← hd2]
              exact keys_nodup_setKey _ _ _ hcmn
            · rw [upd_ne _ _ _ _ hcc] at hd2
              exact hinv.cm_nodup c d hd2
          · intro t d hd
            have hd2 : upd s.student_memberships student_id
                (some (setKey club_id { esm with role := new_role } sm)) t = some d := hd
            by_cases htt : t = student_id
            · subst htt
              rw [upd_self] at hd2
              simp only [Option.some_inj] at hd2
              rw [← hd2]
              exact keys_nodup_setKey _ _ _ hsmn
            · rw [upd_ne _ _ _ _ htt] at hd2
              exact hinv.sm_nodup t d hd2
          · intro p hp
            rcases mem_setKey _ _ _ _ hp with hp | hp
            · subst hp
              show (s.clubs (row0.club_id)).isSome
              exact hinv.row_club (mid, row0) hmem
            · exact hinv.row_club p hp
          · intro p hp
            rcases mem_setKey _ _ _ _ hp with hp | hp
            · subst hp
              show row0.club_id ≠ ""
              exact hinv.row_cne (mid, row0) hmem
            · exact hinv.row_cne p hp
          · intro p hp
            rcases mem_setKey _ _ _ _ hp with hp | hp
            · subst hp
              show row0.student_id ≠ ""
              exact hinv.row_sne (mid, row0) hmem
            · exact hinv.row_sne p hp
          · intro c t
            rw [(hchar c t).1]
            exact hinv.one_row c t
          · intro c t
            have hnil := (hchar c t).2
            rw [ne_eq, not_congr hnil]
            show (getk ((upd s.club_members club_id
              (some (setKey student_id { ecm with role := new_role } cm)) c).getD []) t).isSome
              ↔ ¬ rowsFor s c t = []
            by_cases hcc : c = club_id
            · subst hcc
              rw [upd_self]
              simp only [Option.getD_some]
              by_cases htt : t = student_id
              · subst htt
                rw [getk_setKey_self]
                simp [hq]
              · rw [getk_setKey_ne _ _ _ _ htt]
                have := hinv.cm_row c t
                rw [cmEntry, hcm] at this
                simpa using this
            · rw [upd_ne _ _ _ _ hcc]
              exact hinv.cm_row c t
          · intro c t
            have hnil := (hchar c t).2
            rw [ne_eq, not_congr hnil]
            show (getk ((upd s.student_memberships student_id
              (some (setKey club_id { esm with role := new_role } sm)) t).getD []) c).isSome
              ↔ ¬ rowsFor s c t = []
            by_cases htt : t = student_id
            · subst htt
              rw [upd_self]
              simp only [Option.getD_some]
              by_cases hcc : c = club_id
              · subst hcc
                rw [getk_setKey_self]
                simp [hq]
              · rw [getk_setKey_ne _ _ _ _ hcc]
                have := hinv.sm_row c t
                rw [smEntry, hsm] at this
                simpa using this
            · rw [upd_ne _ _ _ _ htt]
              exact hinv.sm_row c t
          · intro c hc'
            have hc2 : (upd s.club_members club_id
                (some (setKey student_id { ecm with role := new_role } cm)) c).isSome := hc'
            show (s.clubs c).isSome
            by_cases hcc : c = club_id
            · subst hcc
              exact hinv.cm_clubs c (by simp [hcm])
            · rw [upd_ne _ _ _ _ hcc] at hc2
              exact hinv.cm_clubs c hc2
          · intro hg c club' hc'
            show club'.member_count =
              (((upd s.club_members club_id
                (some (setKey student_id { ecm with role := new_role } cm)) c).getD []).length : Int)
            by_cases hcc : c = club_id
            · subst hcc
              rw [upd_self]
              simp only [Option.getD_some]
              rw [length_setKey_some _ _ _ ecm hecm]
              have := hinv.counts hg c club' hc'
              rw [hcm] at this
              simpa using this
            · rw [upd_ne _ _ _ _ hcc]
              exact hinv.counts hg c club' hc'
          · intro hg c d hd p hp
            have hd2 : upd s.club_members club_id
                (some (setKey student_id { ecm with role := new_role } cm)) c = some d := hd
            show (s.students (p.1)).isSome
            by_cases hcc : c = club_id
            · subst hcc
              rw [upd_self] at hd2
              simp only [Option.some_inj] at hd2
              rw [← hd2] at hp
              rcases mem_setKey _ _ _ _ hp with hp | hp
              · rw [hp]
                exact hinv.cm_students hg c cm hcm (student_id, ecm)
                  (mem_of_getk_some cm student_id ecm hecm)
              · exact hinv.cm_students hg c cm hcm p hp
            · rw [upd_ne _ _ _ _ hcc] at hd2
              exact hinv.cm_students hg c d hd2 p hp

/-! ### Preservation: `delete_club` -/

theorem smEraseFold_char (club_id : String) (L : List String) (hL : L.Nodup)
    (m : String → Option Doc) (t : String) :
    smEraseFold club_id L m t =
      if t ∈ L then (m t).map (eraseKey club_id) else m t := by
  induction L generalizing m with
  | nil => simp [smEraseFold]
  | cons h tl ih =>
    have hnd : h ∉ tl ∧ tl.Nodup := by simpa using hL
    have hstep : smEraseFold club_id (h :: tl) m =
        smEraseFold club_id tl (match m h with
          | some d =>
            if (getk d club_id).isSome then upd m h (some (eraseKey club_id d)) else m
          | none => m) := rfl
    set m1 : String → Option Doc := (match m h with
      | some d =>
        if (getk d club_id).isSome then upd m h (some (eraseKey club_id d)) else m
      | none => m) with hm1
    have hm1h : m1 h = (m h).map (eraseKey club_id) := by
      rw [hm1]
      rcases hmh : m h with _ | d
      · simp [hmh]
      · simp only [hmh]
        by_cases hgd : (getk d club_id).isSome
        · rw [if_pos hgd, upd_self]
          rfl
        · rw [if_neg hgd, hmh]
          simp [eraseKey_of_getk_none d club_id (Option.not_isSome_iff_eq_none.mp hgd)]
    have hm1ne : ∀ t', t' ≠ h → m1 t' = m t' := by
      intro t' ht'
      rw [hm1]
      rcases hmh : m h with _ | d
      · simp [hmh]
      · simp only [hmh]
        by_cases hgd : (getk d club_id).isSome
        · rw [if_pos hgd]
          exact upd_ne _ _ _ _ ht'
        · rw [if_neg hgd]
    rw [hstep, ih hnd.2]
    by_cases htl : t ∈ tl
    · rw [if_pos htl, if_pos (List.mem_cons_of_mem _ htl)]
      have hth : t ≠ h := fun hth => hnd.1 (hth ▸ htl)
      rw [hm1ne t hth]
    · rw [if_neg htl]
      by_cases hth : t = h
      · subst hth
        rw [if_pos (List.mem_cons_self _ _)]
        exact hm1h
      · rw [if_neg (by simp [hth, htl])]
        exact hm1ne t hth


theorem inv_deleteClub (g : Bool) (s : DB) (club_id : String)
    (hinv : StoreInv g s) :
    StoreInv g (deleteClub s club_id).2 := by
  rcases hc : s.clubs club_id with _ | club
  · simp only [deleteClub, hc]
    exact hinv
  · set A : List String :=
      (((s.memberships.filter (fun p => p.2.club_id == club_id)).map
        (fun p => p.2.student_id)).filter (fun t => t != "")).dedup with hA
    have hres : (deleteClub s club_id).2 =
        { s with
          memberships := s.memberships.filter (fun p => !(p.2.club_id == club_id)),
          club_members := upd s.club_members club_id none,
          clubs := upd s.clubs club_id none,
          student_memberships := smEraseFold club_id A s.student_memberships } := by
      simp only [deleteClub, hc]
    rw [hres]
    have hAnd : A.Nodup := List.nodup_dedup _
    have haff : ∀ t, t ∈ A ↔ rowsFor s club_id t ≠ [] := by
      intro t
      rw [hA, List.mem_dedup, List.mem_filter]
      constructor
      · rintro ⟨hmap, _⟩
        obtain ⟨p, hpf, hps⟩ := List.mem_map.mp hmap
        have hpm := List.mem_filter.mp hpf
        intro hnil
        have hin : p ∈ rowsFor s club_id t := by
          apply List.mem_filter.mpr
          refine ⟨hpm.1, ?_⟩
          rw [Bool.and_eq_true]
          exact ⟨hpm.2, by simp [hps]⟩
        rw [hnil] at hin
        simp at hin
      · intro hne
        obtain ⟨p, hp⟩ := List.exists_mem_of_ne_nil _ hne
        obtain ⟨hpm, hpc, hpt⟩ := rowsFor_sub s club_id t p hp
        constructor
        · exact List.mem_map.mpr ⟨p, List.mem_filter.mpr ⟨hpm, by simp [hpc]⟩, hpt⟩
        · have hne2 := hinv.row_sne p hpm
          rw [hpt] at hne2
          simp [hne2]
    have hsm' : ∀ t, smEraseFold club_id A s.student_memberships t =
        if t ∈ A then (s.student_memberships t).map (eraseKey club_id)
        else s.student_memberships t :=
      fun t => smEraseFold_char club_id A hAnd s.student_memberships t
    have hrows : ∀ c t,
        (s.memberships.filter (fun p => !(p.2.club_id == club_id))).filter
          (fun p => p.2.club_id == c && p.2.student_id == t)
        = if c = club_id then [] else rowsFor s c t := by
      intro c t
      by_cases hcc : c = club_id
      · subst hcc
        rw [if_pos rfl]
        apply List.eq_nil_iff_forall_not_mem.mpr
        intro p hp
        have h1 := List.mem_filter.mp hp
        have h2 := List.mem_filter.mp h1.1
        have hb := h1.2
        simp only [Bool.and_eq_true, beq_iff_eq] at hb
        have h3 := h2.2
        rw [hb.1] at h3
        simp at h3
      · rw [if_neg hcc]
        rw [List.filter_filter]
        apply List.filter_congr
        intro p hpm
        rcases hb : (p.2.club_id == c && p.2.student_id == t) with _ | _
        · simp [hb]
        · have hb2 := hb
          simp only [Bool.and_eq_true, beq_iff_eq] at hb2
          have : (p.2.club_id == club_id) = false := by
            rw [hb2.1]
            simp [hcc]
          simp [hb, this]
    have hsmEntry : ∀ t c,
        getk ((smEraseFold club_id A s.student_memberships t).getD []) c =
        if c = club_id then none else getk ((s.student_memberships t).getD []) c := by
      intro t c
      rw [hsm']
      by_cases htA : t ∈ A
      · rw [if_pos htA]
        rcases hsmt : s.student_memberships t with _ | d
        · simp
        · simp only [Option.map_some', Option.getD_some]
          by_cases hcc : c = club_id
          · rw [if_pos hcc, hcc]
            exact getk_eraseKey_self d club_id (hinv.sm_nodup t d hsmt)
          · rw [if_neg hcc]
            exact getk_eraseKey_ne d club_id c hcc
      · rw [if_neg htA]
        by_cases hcc : c = club_id
        · rw [if_pos hcc]
          have hnr : rowsFor s club_id t = [] := by
            by_contra hne
            exact htA ((haff t).mpr hne)
          rw [hcc]
          apply Option.not_isSome_iff_eq_none.mp
          intro hsome
          exact (hinv.sm_row club_id t).mp hsome hnr
        · rw [if_neg hcc]
    refine ⟨?_, ?_, ?_, ?_, ?_, ?_, ?_, ?_, ?_, ?_, hinv.emails_norm, ?_, ?_⟩
    · exact (((List.filter_sublist _).map Prod.fst).nodup hinv.m_nodup :)
    · intro c d hd
      have hd2 : upd s.club_members club_id none c = some d := hd
      have hne : c ≠ club_id := by
        intro hcc
        rw [hcc, upd_self] at hd2
        exact Option.noConfusion hd2
      rw [upd_ne _ _ _ _ hne] at hd2
      exact hinv.cm_nodup c d hd2
    · intro t d hd
      have hd2 : smEraseFold club_id A s.student_memberships t = some d := hd
      rw [hsm'] at hd2
      by_cases htA : t ∈ A
      · rw [if_pos htA] at hd2
        rcases hsmt : s.student_memberships t with _ | d0
        · rw [hsmt] at hd2
          simp at hd2
        · rw [hsmt] at hd2
          simp only [Option.map_some', Option.some_inj] at hd2
          rw [← hd2]
          exact keys_nodup_eraseKey _ _ (hinv.sm_nodup t d0 hsmt)
      · rw [if_neg htA] at hd2
        exact hinv.sm_nodup t d hd2
    · intro p hp
      have h1 := List.mem_filter.mp hp
      have hne : p.2.club_id ≠ club_id := by
        have := h1.2
        simp only [Bool.not_eq_eq_eq_not, Bool.not_true, beq_eq_false_iff_ne, ne_eq] at this
        exact this
      show (upd s.clubs club_id none (p.2.club_id)).isSome
      rw [upd_ne _ _ _ _ hne]
      exact hinv.row_club p h1.1
    · intro p hp
      exact hinv.row_cne p (List.mem_filter.mp hp).1
    · intro p hp
      exact hinv.row_sne p (List.mem_filter.mp hp).1
    · intro c t
      show ((s.memberships.filter (fun p => !(p.2.club_id == club_id))).filter
          (fun p => p.2.club_id == c && p.2.student_id == t)).length ≤ 1
      rw [hrows]
      by_cases hcc : c = club_id
      · rw [if_pos hcc]; simp
      · rw [if_neg hcc]; exact hinv.one_row c t
    · intro c t
      show (getk ((upd s.club_members club_id none c).getD []) t).isSome ↔
        (s.memberships.filter (fun p => !(p.2.club_id == club_id))).filter
          (fun p => p.2.club_id == c && p.2.student_id == t) ≠ []
      rw [hrows]
      by_cases hcc : c = club_id
      · rw [if_pos hcc, hcc, upd_self]
        simp
      · rw [if_neg hcc, upd_ne _ _ _ _ hcc]
        exact hinv.cm_row c t
    · intro c t
      show (getk ((smEraseFold club_id A s.student_memberships t).getD []) c).isSome ↔
        (s.memberships.filter (fun p => !(p.2.club_id == club_id))).filter
          (fun p => p.2.club_id == c && p.2.student_id == t) ≠ []
      rw [hrows, hsmEntry]
      by_cases hcc : c = club_id
      · rw [if_pos hcc, if_pos hcc]
        simp
      · rw [if_neg hcc, if_neg hcc]
        exact hinv.sm_row c t
    · intro c hc'
      have hc2 : (upd s.club_members club_id none c).isSome := hc'
      have hne : c ≠ club_id := by
        intro hcc
        rw [hcc, upd_self] at hc2
        simp at hc2
      rw [upd_ne _ _ _ _ hne] at hc2
      show (upd s.clubs club_id none c).isSome
      rw [upd_ne _ _ _ _ hne]
      exact hinv.cm_clubs c hc2
    · intro hg c club' hc'
      have hc2 : upd s.clubs club_id none c = some club' := hc'
      have hne : c ≠ club_id := by
        intro hcc
        rw [hcc, upd_self] at hc2
        exact Option.noConfusion hc2
      rw [upd_ne _ _ _ _ hne] at hc2
      show club'.member_count = (((upd s.club_members club_id none c).getD []).length : Int)
      rw [upd_ne _ _ _ _ hne]
      exact hinv.counts hg c club' hc2
    · intro hg c d hd p hp
      have hd2 : upd s.club_members club_id none c = some d := hd
      have hne : c ≠ club_id := by
        intro hcc
        rw [hcc, upd_self] at hd2
        exact Option.noConfusion hd2
      rw [upd_ne _ _ _ _ hne] at hd2
      exact hinv.cm_students hg c d hd2 p hp

/-! ### Preservation: `delete_student` -/

theorem cmEraseFold_char (student_id : String) (L : List String) (hL : L.Nodup)
    (m : String → Option Doc) (c : String) :
    cmEraseFold student_id L m c =
      if c ∈ L then (m c).map (eraseKey student_id) else m c := by
  induction L generalizing m with
  | nil => simp [cmEraseFold]
  | cons h tl ih =>
    have hnd : h ∉ tl ∧ tl.Nodup := by simpa using hL
    have hstep : cmEraseFold student_id (h :: tl) m =
        cmEraseFold student_id tl (match m h with
          | some d => upd m h (some (eraseKey student_id d))
          | none => m) := rfl
    set m1 : String → Option Doc := (match m h with
      | some d => upd m h (some (eraseKey student_id d))
      | none => m) with hm1
    have hm1h : m1 h = (m h).map (eraseKey student_id) := by
      rw [hm1]
      rcases hmh : m h with _ | d
      · simp [hmh]
      · simp only [hmh]
        rw [upd_self]
        rfl
    have hm1ne : ∀ c', c' ≠ h → m1 c' = m c' := by
      intro c' hc'
      rw [hm1]
      rcases hmh : m h with _ | d
      · simp [hmh]
      · simp only [hmh]
        exact upd_ne _ _ _ _ hc'
    rw [hstep, ih hnd.2]
    by_cases htl : c ∈ tl
    · rw [if_pos htl, if_pos (List.mem_cons_of_mem _ htl)]
      exact congrArg _ (hm1ne c (fun he => hnd.1 (he ▸ htl)))
    · rw [if_neg htl]
      by_cases hch : c = h
      · subst hch
        rw [if_pos (List.mem_cons_self _ _)]
        exact hm1h
      · rw [if_neg (by simp [hch, htl])]
        exact hm1ne c hch

theorem getClubMembers_congr (s t : DB) (c : String)
    (hcm : s.club_members = t.club_members) (hst : s.students = t.students) :
    getClubMembers s c = getClubMembers t c := by
  simp only [getClubMembers, hcm, hst]

theorem getClubMembers_length_of_all (s : DB) (club_id : String) (d : Doc)
    (hd : s.club_members club_id = some d)
    (hall : ∀ p ∈ d, (s.students (p.1)).isSome) :
    (getClubMembers s club_id).length = d.length := by
  simp only [getClubMembers, hd]
  rw [List.length_filterMap_eq_countP, List.countP_eq_length_filter]
  have hf : d.filter (fun p => Option.isSome
      (match s.students p.1 with
       | none => none
       | some st => some (p.1, st, p.2))) = d := by
    apply List.filter_eq_self.mpr
    intro p hp
    have := hall p hp
    rcases hs : s.students p.1 with _ | st
    · rw [hs] at this; simp at this
    · simp [hs]
  rw [hf]

theorem recountFold_char (L : List String) : L.Nodup → ∀ (s0 : DB),
    (recountFold L s0).memberships = s0.memberships ∧
    (recountFold L s0).club_members = s0.club_members ∧
    (recountFold L s0).student_memberships = s0.student_memberships ∧
    (recountFold L s0).students = s0.students ∧
    ∀ c, (recountFold L s0).clubs c =
      if c ∈ L then (s0.clubs c).map (fun club =>
        { club with member_count := ((getClubMembers s0 c).length : Int) })
      else s0.clubs c := by
  induction L with
  | nil =>
    intro _ s0
    refine ⟨rfl, rfl, rfl, rfl, ?_⟩
    intro c
    simp [recountFold]
  | cons h tl ih =>
    intro hL s0
    have hnd : h ∉ tl ∧ tl.Nodup := by simpa using hL
    have hstep : recountFold (h :: tl) s0 =
        recountFold tl (match updateClubMemberCount s0 h with
          | .ok (s', _) => s'
          | .error _ => s0) := rfl
    set s1 : DB := (match updateClubMemberCount s0 h with
      | .ok (s', _) => s'
      | .error _ => s0) with hs1
    have hfields : s1.memberships = s0.memberships ∧ s1.club_members = s0.club_members ∧
        s1.student_memberships = s0.student_memberships ∧ s1.students = s0.students := by
      rw [hs1]
      rcases hch : s0.clubs h with _ | club
      · simp [updateClubMemberCount, hch]
      · simp [updateClubMemberCount, hch]
    have hclubs1 : ∀ c, s1.clubs c =
        if c = h then (s0.clubs c).map (fun club =>
          { club with member_count := ((getClubMembers s0 c).length : Int) })
        else s0.clubs c := by
      intro c
      rw [hs1]
      rcases hch : s0.clubs h with _ | club
      · simp only [updateClubMemberCount, hch]
        by_cases hcc : c = h
        · rw [if_pos hcc, hcc, hch]
          rfl
        · rw [if_neg hcc]
      · simp only [updateClubMemberCount, hch]
        by_cases hcc : c = h
        · rw [if_pos hcc, hcc, upd_self, hch]
          rfl
        · rw [if_neg hcc]
          exact upd_ne _ _ _ _ hcc
    have hgcm : ∀ c, getClubMembers s1 c = getClubMembers s0 c :=
      fun c => getClubMembers_congr s1 s0 c hfields.2.1 hfields.2.2.2
    obtain ⟨ihm, ihcm, ihsm, ihst, ihclubs⟩ := ih hnd.2 s1
    refine ⟨?_, ?_, ?_, ?_, ?_⟩
    · rw [hstep, ihm, hfields.1]
    · rw [hstep, ihcm, hfields.2.1]
    · rw [hstep, ihsm, hfields.2.2.1]
    · rw [hstep, ihst, hfields.2.2.2]
    · intro c
      rw [hstep, ihclubs c]
      by_cases hct : c ∈ tl
      · rw [if_pos hct, if_pos (List.mem_cons_of_mem _ hct)]
        have hch2 : c ≠ h := fun he => hnd.1 (he ▸ hct)
        rw [hclubs1 c, if_neg hch2, hgcm c]
      · rw [if_neg hct]
        by_cases hch2 : c = h
        · rw [if_pos (by simp [hch2]), hclubs1 c, if_pos hch2]
        · rw [if_neg (by simp [hch2, hct]), hclubs1 c, if_neg hch2]

theorem mem_key_ne {α : Type} (d : List (String × α)) (k : String) (p : String × α)
    (hnone : getk d k = none) (hp : p ∈ d) : p.1 ≠ k := by
  intro he
  rw [getk_eq_none_iff] at hnone
  exact hnone (he ▸ List.mem_map_of_mem Prod.fst hp)

theorem inv_deleteStudent (g : Bool) (s : DB) (student_id : String)
    (hinv : StoreInv g s) :
    StoreInv g (deleteStudent s student_id).2 := by
  rcases hst : s.students student_id with _ | stu
  · simp only [deleteStudent, hst]
    exact hinv
  · by_cases hguard : ∃ c ∈ affectedClubs s student_id, s.club_members c = none
    · simp only [deleteStudent, hst, if_pos hguard]
      exact hinv
    · set A : List String := affectedClubs s student_id with hA
      set S1 : DB :=
        { s with
          memberships := s.memberships.filter (fun p => !(p.2.student_id == student_id)),
          club_members := cmEraseFold student_id A s.club_members,
          student_memberships := upd s.student_memberships student_id none,
          students := upd s.students student_id none } with hS1
      have hres : (deleteStudent s student_id).2 = recountFold A S1 := by
        simp only [deleteStudent, hst, if_neg hguard]
      rw [hres]
      have hAnd : A.Nodup := List.nodup_dedup _
      have haff : ∀ c, c ∈ A ↔ rowsFor s c student_id ≠ [] := by
        intro c
        rw [hA, affectedClubs, List.mem_dedup, List.mem_filter]
        constructor
        · rintro ⟨hmap, _⟩
          obtain ⟨p, hpf, hps⟩ := List.mem_map.mp hmap
          have hpm := List.mem_filter.mp hpf
          intro hnil
          have hin : p ∈ rowsFor s c student_id := by
            apply List.mem_filter.mpr
            refine ⟨hpm.1, ?_⟩
            rw [Bool.and_eq_true]
            exact ⟨by simp [hps], hpm.2⟩
          rw [hnil] at hin
          simp at hin
        · intro hne
          obtain ⟨p, hp⟩ := List.exists_mem_of_ne_nil _ hne
          obtain ⟨hpm, hpc, hpt⟩ := rowsFor_sub s c student_id p hp
          constructor
          · exact List.mem_map.mpr ⟨p, List.mem_filter.mpr ⟨hpm, by simp [hpt]⟩, hpc⟩
          · have hne2 := hinv.row_cne p hpm
            rw [hpc] at hne2
            simp [hne2]
      have hdoc : ∀ c ∈ A, ∃ d, s.club_members c = some d := by
        intro c hc
        rcases hh : s.club_members c with _ | d
        · exact absurd ⟨c, hc, hh⟩ hguard
        · exact ⟨d, rfl⟩
      have hcm1 : ∀ c t, getk ((S1.club_members c).getD []) t =
          if t = student_id then none else getk ((s.club_members c).getD []) t := by
        intro c t
        have : S1.club_members c = cmEraseFold student_id A s.club_members c := rfl
        rw [this, cmEraseFold_char student_id A hAnd s.club_members c]
        by_cases hcA : c ∈ A
        · rw [if_pos hcA]
          obtain ⟨d, hd⟩ := hdoc c hcA
          rw [hd]
          simp only [Option.map_some', Option.getD_some]
          by_cases htt : t = student_id
          · rw [if_pos htt, htt]
            exact getk_eraseKey_self d student_id (hinv.cm_nodup c d hd)
          · rw [if_neg htt]
            exact getk_eraseKey_ne d student_id t htt
        · rw [if_neg hcA]
          by_cases htt : t = student_id
          · rw [if_pos htt, htt]
            have hnr : rowsFor s c student_id = [] := by
              by_contra hne
              exact hcA ((haff c).mpr hne)
            apply Option.not_isSome_iff_eq_none.mp
            intro hsome
            exact (hinv.cm_row c student_id).mp hsome hnr
          · rw [if_neg htt]
      have hrows1 : ∀ c t,
          (s.memberships.filter (fun p => !(p.2.student_id == student_id))).filter
            (fun p => p.2.club_id == c && p.2.student_id == t)
          = if t = student_id then [] else rowsFor s c t := by
        intro c t
        by_cases htt : t = student_id
        · subst htt
          rw [if_pos rfl]
          apply List.eq_nil_iff_forall_not_mem.mpr
          intro p hp
          have h1 := List.mem_filter.mp hp
          have h2 := List.mem_filter.mp h1.1
          have hb := h1.2
          simp only [Bool.and_eq_true, beq_iff_eq] at hb
          have h3 := h2.2
          rw [hb.2] at h3
          simp at h3
        · rw [if_neg htt]
          rw [List.filter_filter]
          apply List.filter_congr
          intro p hpm
          rcases hb : (p.2.club_id == c && p.2.student_id == t) with _ | _
          · simp [hb]
          · have hb2 := hb
            simp only [Bool.and_eq_true, beq_iff_eq] at hb2
            have : (p.2.student_id == student_id) = false := by
              rw [hb2.2]
              simp [htt]
            simp [hb, this]
      obtain ⟨hRm, hRcm, hRsm, hRst, hRclubs⟩ := recountFold_char A hAnd S1
      have hS1m : S1.memberships =
          s.memberships.filter (fun p => !(p.2.student_id == student_id)) := rfl
      have hS1clubs : S1.clubs = s.clubs := rfl
      have hS1sm : S1.student_memberships = upd s.student_memberships student_id none := rfl
      have hS1st : S1.students = upd s.students student_id none := rfl
      have hclubsSome : ∀ c, ((recountFold A S1).clubs c).isSome = (s.clubs c).isSome := by
        intro c
        rw [hRclubs c]
        by_cases hcA : c ∈ A
        · rw [if_pos hcA, hS1clubs]
          rcases hh : s.clubs c with _ | club <;> simp
        · rw [if_neg hcA, hS1clubs]
      refine ⟨?_, ?_, ?_, ?_, ?_, ?_, ?_, ?_, ?_, ?_, ?_, ?_, ?_⟩
      · rw [hRm, hS1m]
        exact (((List.filter_sublist _).map Prod.fst).nodup hinv.m_nodup :)
      · intro c d hd
        rw [hRcm] at hd
        have hd2 : cmEraseFold student_id A s.club_members c = some d := hd
        rw [cmEraseFold_char student_id A hAnd s.club_members c] at hd2
        by_cases hcA : c ∈ A
        · rw [if_pos hcA] at hd2
          obtain ⟨d0, hd0⟩ := hdoc c hcA
          rw [hd0] at hd2
          simp only [Option.map_some', Option.some_inj] at hd2
          rw [← hd2]
          exact keys_nodup_eraseKey _ _ (hinv.cm_nodup c d0 hd0)
        · rw [if_neg hcA] at hd2
          exact hinv.cm_nodup c d hd2
      · intro t d hd
        rw [hRsm, hS1sm] at hd
        by_cases htt : t = student_id
        · rw [htt, upd_self] at hd
          exact Option.noConfusion hd
        · rw [upd_ne _ _ _ _ htt] at hd
          exact hinv.sm_nodup t d hd
      · intro p hp
        rw [hRm, hS1m] at hp
        have h1 := List.mem_filter.mp hp
        have h2 := hinv.row_club p h1.1
        rw [hclubsSome (p.2.club_id)]
        exact h2
      · intro p hp
        rw [hRm, hS1m] at hp
        exact hinv.row_cne p (List.mem_filter.mp hp).1
      · intro p hp
        rw [hRm, hS1m] at hp
        exact hinv.row_sne p (List.mem_filter.mp hp).1
      · intro c t
        show (((recountFold A S1).memberships.filter
          (fun p => p.2.club_id == c && p.2.student_id == t)).length) ≤ 1
        rw [hRm, hS1m, hrows1]
        by_cases htt : t = student_id
        · rw [if_pos htt]; simp
        · rw [if_neg htt]; exact hinv.one_row c t
      · intro c t
        show (getk (((recountFold A S1).club_members c).getD []) t).isSome ↔
          (recountFold A S1).memberships.filter
            (fun p => p.2.club_id == c && p.2.student_id == t) ≠ []
        rw [hRcm, hRm, hS1m, hrows1, hcm1]
        by_cases htt : t = student_id
        · rw [if_pos htt, if_pos htt]
          simp
        · rw [if_neg htt, if_neg htt]
          exact hinv.cm_row c t
      · intro c t
        show (getk (((recountFold A S1).student_memberships t).getD []) c).isSome ↔
          (recountFold A S1).memberships.filter
            (fun p => p.2.club_id == c && p.2.student_id == t) ≠ []
        rw [hRsm, hS1sm, hRm, hS1m, hrows1]
        by_cases htt : t = student_id
        · rw [if_pos htt, htt, upd_self]
          simp
        · rw [if_neg htt, upd_ne _ _ _ _ htt]
          exact hinv.sm_row c t
      · intro c hc'
        rw [hRcm] at hc'
        have hc2 : (cmEraseFold student_id A s.club_members c).isSome := hc'
        rw [cmEraseFold_char student_id A hAnd s.club_members c] at hc2
        have hsome : (s.club_members c).isSome := by
          by_cases hcA : c ∈ A
          · rw [if_pos hcA] at hc2
            rcases hh : s.club_members c with _ | d
            · rw [hh] at hc2; simp at hc2
            · simp
          · rw [if_neg hcA] at hc2
            exact hc2
        rw [hclubsSome c]
        exact hinv.cm_clubs c hsome
      · intro id st e hid he
        rw [hRst, hS1st] at hid
        by_cases hn : id = student_id
        · rw [hn, upd_self] at hid
          exact Option.noConfusion hid
        · rw [upd_ne _ _ _ _ hn] at hid
          exact hinv.emails_norm id st e hid he
      · intro hg c club' hc'
        rw [hRclubs c] at hc'
        show club'.member_count = ((((recountFold A S1).club_members c).getD []).length : Int)
        rw [hRcm]
        by_cases hcA : c ∈ A
        · rw [if_pos hcA, hS1clubs] at hc'
          obtain ⟨d, hd⟩ := hdoc c hcA
          rcases hh : s.clubs c with _ | club
          · rw [hh] at hc'; simp at hc'
          · rw [hh] at hc'
            simp only [Option.map_some', Option.some_inj] at hc'
            have hcmc : S1.club_members c = some (eraseKey student_id d) := by
              show cmEraseFold student_id A s.club_members c = _
              rw [cmEraseFold_char student_id A hAnd s.club_members c, if_pos hcA, hd]
              rfl
            have hall : ∀ p ∈ eraseKey student_id d, (S1.students (p.1)).isSome := by
              intro p hp
              have hpd : p ∈ d := (eraseKey_sublist d student_id).subset hp
              have hkey : p.1 ≠ student_id := mem_key_ne (eraseKey student_id d) student_id p
                (getk_eraseKey_self d student_id (hinv.cm_nodup c d hd)) hp
              show (upd s.students student_id none (p.1)).isSome
              rw [upd_ne _ _ _ _ hkey]
              exact hinv.cm_students hg c d hd p hpd
            have hlen := getClubMembers_length_of_all S1 c (eraseKey student_id d) hcmc hall
            rw [← hc']
            show ((getClubMembers S1 c).length : Int) = _
            rw [hlen, hcmc]
            simp
        · rw [if_neg hcA, hS1clubs] at hc'
          have hcmc : S1.club_members c = s.club_members c := by
            show cmEraseFold student_id A s.club_members c = _
            rw [cmEraseFold_char student_id A hAnd s.club_members c, if_neg hcA]
          rw [hcmc]
          exact hinv.counts hg c club' hc'
      · intro hg c d hd p hp
        rw [hRcm] at hd
        have hd2 : cmEraseFold student_id A s.club_members c = some d := hd
        rw [cmEraseFold_char student_id A hAnd s.club_members c] at hd2
        show ((recountFold A S1).students (p.1)).isSome
        rw [hRst, hS1st]
        by_cases hcA : c ∈ A
        · rw [if_pos hcA] at hd2
          obtain ⟨d0, hd0⟩ := hdoc c hcA
          rw [hd0] at hd2
          simp only [Option.map_some', Option.some_inj] at hd2
          rw [← hd2] at hp
          have hpd : p ∈ d0 := (eraseKey_sublist d0 student_id).subset hp
          have hkey : p.1 ≠ student_id := mem_key_ne (eraseKey student_id d0) student_id p
            (getk_eraseKey_self d0 student_id (hinv.cm_nodup c d0 hd0)) hp
          rw [upd_ne _ _ _ _ hkey]
          exact hinv.cm_students hg c d0 hd0 p hpd
        · rw [if_neg hcA] at hd2
          have hnr : rowsFor s c student_id = [] := by
            by_contra hne
            exact hcA ((haff c).mpr hne)
          have hnone : getk ((s.club_members c).getD []) student_id = none := by
            apply Option.not_isSome_iff_eq_none.mp
            intro hsome
            exact (hinv.cm_row c student_id).mp hsome hnr
          rw [hd2] at hnone
          simp only [Option.getD_some] at hnone
          have hkey : p.1 ≠ student_id := mem_key_ne d student_id p hnone hp
          rw [upd_ne _ _ _ _ hkey]
          exact hinv.cm_students hg c d hd2 p hp

/-- Every reachable state satisfies the invariant (the guarded fields under
guarded reachability). -/
theorem reach_inv {g : Bool} {s : DB} (h : Reach g s) : StoreInv g s := by
  induction h with
  | init => exact inv_empty g
  | step_createClub s input newId now _ hca hmc hfresh hne ih =>
    exact inv_createClub g s input newId now ih hmc hfresh
  | step_updateClub s club_id u _ ih =>
    exact inv_updateClub g s club_id u ih
  | step_deleteClub s club_id _ ih =>
    exact inv_deleteClub g s club_id ih
  | step_createStudent s input newId now _ hca hfresh hne ih =>
    exact inv_createStudent g s input newId now ih
  | step_updateStudent s student_id u _ ih =>
    exact inv_updateStudent g s student_id u ih
  | step_deleteStudent s student_id _ ih =>
    exact inv_deleteStudent g s student_id ih
  | step_addMember s club_id student_id role newMid now _ hcne hsne hfresh hmne hguard ih =>
    exact inv_addMember g s club_id student_id role newMid now ih hcne hsne hfresh hguard
  | step_removeMember s club_id student_id _ ih =>
    exact inv_removeMember g s club_id student_id ih
  | step_updateRole s club_id student_id new_role _ ih =>
    exact inv_updateRole g s club_id student_id new_role ih
  | step_recount s club_id _ ih =>
    exact inv_recount g s club_id ih

/-! ## Claim theorems -/

theorem reach_exGhost2 : Reach false exGhost2 := by
  have h1 : Reach false exGhost1 :=
    Reach.step_addMember false exS2 "C1" "GHOST" "Member" "M1" "t2" (reach_exS2 false)
      (by decide) (by decide) rfl (by decide) (fun h => nomatch h)
  exact Reach.step_addMember false exGhost1 "C1" "S1" "Member" "M2" "t3" h1
    (by decide) (by decide) (by decide) (by decide) (fun h => nomatch h)

theorem reach_exDupEmails (g : Bool) : Reach g exDupEmails := by
  have h1 : Reach g (createStudent emptyDB
      { name := "Alice", email := some " Alice@Example.COM ", created_at := none }
      "S1" "t0").1 :=
    Reach.step_createStudent g emptyDB _ "S1" "t0" (Reach.init g) rfl rfl (by decide)
  exact Reach.step_createStudent g _ _ "S2" "t1" h1 rfl (by decide) (by decide)

/-- C1 (counterexample): the claim as stated fails on the code. In the
store-reachable state `exGhost2` — club `C1` with an indexed member `GHOST`
that has no student document (`add_member_to_club` never checks student
existence) and the real student `S1` — the mutation `delete_student(S1)`
completes successfully, the club still exists, yet its stored `member_count`
is 0 while its `club_members` index holds 1 entry, because
`update_club_member_count` counts only members whose student document exists. -/
theorem C1_counterexample :
    Reach false exGhost2 ∧
    (deleteStudent exGhost2 "S1").1 = .ok () ∧
    (deleteStudent exGhost2 "S1").2.clubs "C1" =
      some ⟨"Chess Club", "weekly tournaments", none, none, "t0", 0⟩ ∧
    (((deleteStudent exGhost2 "S1").2.club_members "C1").getD []).length = 1 :=
  ⟨reach_exGhost2, rfl, by decide, by decide⟩

/-- C1 (amended): provided every `add_member_to_club` call is made for an
existing student — the check `app.py` performs before calling the store — the
stored `member_count` of every existing club equals the number of entries in
its `club_members` index document in every reachable state, in particular
immediately after each mutation completes. -/
theorem C1_member_count_inv_guarded (s : DB) (hs : Reach true s)
    (club_id : String) (club : Club) (hc : s.clubs club_id = some club) :
    club.member_count = (((s.club_members club_id).getD []).length : Int) :=
  (reach_inv hs).counts rfl club_id club hc

/-- C1 witness: the guarded invariant evaluated in the concrete state `exS3`. -/
theorem C1_witness :
    ∃ club, exS3.clubs "C1" = some club ∧
      club.member_count = (((exS3.club_members "C1").getD []).length : Int) :=
  ⟨⟨"Chess Club", "weekly tournaments", none, none, "t0", 1⟩, by decide,
    C1_member_count_inv_guarded exS3 (reach_exS3 true) "C1" _ (by decide)⟩

/-- C2: in every store-reachable state, a pair appears in the `club_members`
document iff it appears in the `student_memberships` document iff exactly one
membership row exists for it. -/
theorem C2_three_way_consistency (s : DB) (hs : Reach false s)
    (club_id student_id : String) :
    ((cmEntry s club_id student_id).isSome ↔ (smEntry s student_id club_id).isSome) ∧
    ((cmEntry s club_id student_id).isSome ↔ (rowsFor s club_id student_id).length = 1) := by
  have hinv := reach_inv hs
  constructor
  · rw [hinv.cm_row, hinv.sm_row]
  · rw [hinv.cm_row]
    constructor
    · intro hne
      have h1 := hinv.one_row club_id student_id
      have h2 : 0 < (rowsFor s club_id student_id).length := List.length_pos.mpr hne
      omega
    · intro hlen hnil
      rw [hnil] at hlen
      simp at hlen

/-- C2 witness: the three-way consistency evaluated at the concrete pair
`(C1, S1)` in `exS3`. -/
theorem C2_witness :
    ((cmEntry exS3 "C1" "S1").isSome ↔ (smEntry exS3 "S1" "C1").isSome) ∧
    ((cmEntry exS3 "C1" "S1").isSome ↔ (rowsFor exS3 "C1" "S1").length = 1) :=
  C2_three_way_consistency exS3 (reach_exS3 false) "C1" "S1"

/-- C3 (code bug): `add_member_to_club` never validates the role. With club
`C1` and student `S1` existing and the pair absent, the call with the
non-enum role `"Bogus"` succeeds, creates a membership row carrying role
`"Bogus"` and increments `member_count`, where the spec requires an
`InvalidRole` failure with no state change. -/
theorem C3_invalid_role_accepted :
    "Bogus" ∉ allowedRoles ∧
    (addMemberToClub exS2 "C1" "S1" "Bogus" "M1" "t2").1 = .ok "M1" ∧
    getk (addMemberToClub exS2 "C1" "S1" "Bogus" "M1" "t2").2.memberships "M1" =
      some ⟨"C1", "S1", "Bogus", "t2"⟩ ∧
    (addMemberToClub exS2 "C1" "S1" "Bogus" "M1" "t2").2.clubs "C1" =
      some ⟨"Chess Club", "weekly tournaments", none, none, "t0", 1⟩ :=
  ⟨by decide, rfl, by decide, by decide⟩

/-- C4 (counterexample): email uniqueness is not enforced. Two
`create_student` calls whose emails normalize to the same string both
succeed, producing two distinct student documents with the identical stored
email. -/
theorem C4_counterexample :
    Reach false exDupEmails ∧
    ("S1" : String) ≠ "S2" ∧
    exDupEmails.students "S1" = some ⟨"Alice", some "alice@example.com", "t0"⟩ ∧
    exDupEmails.students "S2" = some ⟨"Bob", some "alice@example.com", "t1"⟩ :=
  ⟨reach_exDupEmails false, by decide, by decide, by decide⟩

/-- C4 (amended): `create_student` (and `update_student`) store emails in
normalized trimmed-lowercase form — every stored email of every reachable
state is the normalization of some raw input (or the empty string, which the
code stores untouched) — but uniqueness across students is not enforced. -/
theorem C4_emails_normalized (s : DB) (hs : Reach false s) (id : String)
    (st : Student) (e : String) (hid : s.students id = some st)
    (he : st.email = some e) :
    e = "" ∨ ∃ raw, e = normalizeEmail raw :=
  (reach_inv hs).emails_norm id st e hid he

/-- C4 witness: the stored email of `S1` in `exDupEmails` is in normalized
form. -/
theorem C4_witness :
    ("alice@example.com" : String) = "" ∨
      ∃ raw, ("alice@example.com" : String) = normalizeEmail raw :=
  C4_emails_normalized exDupEmails (reach_exDupEmails false) "S1"
    ⟨"Alice", some "alice@example.com", "t0"⟩ "alice@example.com" (by decide) rfl

/-- C5: from any guarded-reachable state in which `(club_id, student_id)` is
an active membership, `remove_member_from_club` succeeds once and decrements
the club's `member_count` by exactly one, and an immediate second call on the
same pair fails `Membership not found` leaving the state — and hence the
count — untouched. -/
theorem C5_remove_twice (s : DB) (hs : Reach true s) (club_id student_id : String)
    (hactive : rowsFor s club_id student_id ≠ []) :
    ∃ club club', s.clubs club_id = some club ∧
      (removeMemberFromClub s club_id student_id).1 = .ok () ∧
      (removeMemberFromClub s club_id student_id).2.clubs club_id = some club' ∧
      club'.member_count = club.member_count - 1 ∧
      removeMemberFromClub (removeMemberFromClub s club_id student_id).2 club_id student_id
        = (.error "Membership not found",
           (removeMemberFromClub s club_id student_id).2) := by
  have hinv := reach_inv hs
  rcases hq : rowsFor s club_id student_id with _ | ⟨⟨mid, row0⟩, rest⟩
  · exact absurd hq hactive
  · obtain ⟨hrest, hmem, hrc, hrs, hget⟩ := rowsFor_singleton hinv hq
    have hclub : (s.clubs club_id).isSome := hrc ▸ hinv.row_club (mid, row0) hmem
    rcases hc : s.clubs club_id with _ | club
    · rw [hc] at hclub; simp at hclub
    have hcme : (cmEntry s club_id student_id).isSome := by
      rw [hinv.cm_row, hq]; simp
    rcases hcm : s.club_members club_id with _ | cm
    · rw [cmEntry, hcm] at hcme; simp at hcme
    rw [cmEntry, hcm] at hcme
    simp only [Option.getD_some] at hcme
    rcases Option.isSome_iff_exists.mp hcme with ⟨ecm, hecm⟩
    have hkey : (removeMemberFromClub s club_id student_id).1 = .ok () ∧
        (removeMemberFromClub s club_id student_id).2.clubs =
          upd s.clubs club_id
            (some { club with member_count := max 0 (club.member_count - 1) }) ∧
        (removeMemberFromClub s club_id student_id).2.club_members club_id =
          some (eraseKey student_id cm) := by
      rcases hsm : s.student_memberships student_id with _ | sm
      · refine ⟨?_, ?_, ?_⟩ <;>
          simp only [removeMemberFromClub, hq, hcm, hsm, hc, upd_self]
      · refine ⟨?_, ?_, ?_⟩ <;>
          simp only [removeMemberFromClub, hq, hcm, hsm, hc, upd_self]
    have hs' : Reach true (removeMemberFromClub s club_id student_id).2 :=
      Reach.step_removeMember true s club_id student_id hs
    have hinv' := reach_inv hs'
    have hnone : cmEntry (removeMemberFromClub s club_id student_id).2
        club_id student_id = none := by
      rw [cmEntry, hkey.2.2]
      simp only [Option.getD_some]
      exact getk_eraseKey_self cm student_id (hinv.cm_nodup club_id cm hcm)
    have hrows' : rowsFor (removeMemberFromClub s club_id student_id).2
        club_id student_id = [] := by
      by_contra hne
      have h2 := (hinv'.cm_row club_id student_id).mpr hne
      rw [hnone] at h2
      simp at h2
    refine ⟨club, { club with member_count := max 0 (club.member_count - 1) },
      rfl, hkey.1, ?_, ?_, ?_⟩
    · rw [hkey.2.1, upd_self]
    · show max 0 (club.member_count - 1) = club.member_count - 1
      have hold := hinv.counts rfl club_id club hc
      rw [hcm] at hold
      simp only [Option.getD_some] at hold
      have hlen := length_eraseKey_some cm student_id ecm hecm
      omega
    · set s2 : DB := (removeMemberFromClub s club_id student_id).2 with hs2
      show removeMemberFromClub s2 club_id student_id = (.error "Membership not found", s2)
      simp only [removeMemberFromClub, hrows']

/-- C5 witness: remove-then-remove on the concrete active membership
`(C1, S1)` of `exS3`. -/
theorem C5_witness :
    ∃ club club', exS3.clubs "C1" = some club ∧
      (removeMemberFromClub exS3 "C1" "S1").1 = .ok () ∧
      (removeMemberFromClub exS3 "C1" "S1").2.clubs "C1" = some club' ∧
      club'.member_count = club.member_count - 1 ∧
      removeMemberFromClub (removeMemberFromClub exS3 "C1" "S1").2 "C1" "S1"
        = (.error "Membership not found", (removeMemberFromClub exS3 "C1" "S1").2) :=
  C5_remove_twice exS3 (reach_exS3 true) "C1" "S1" (by decide)

/-- C6: when a first `add_member_to_club` for a pair succeeds, any second call
for the same pair — whatever role it passes — returns the duplicate error
from the explicit pre-write existence check, with the state returned exactly
as it was: the rejection happens before any index write. -/
theorem C6_duplicate_add_conflict (s : DB)
    (club_id student_id role1 mid1 now1 : String) (mid : String)
    (hok : (addMemberToClub s club_id student_id role1 mid1 now1).1 = .ok mid) :
    ∀ role2 mid2 now2,
      addMemberToClub (addMemberToClub s club_id student_id role1 mid1 now1).2
        club_id student_id role2 mid2 now2
      = (.error "Student is already a member of this club",
         (addMemberToClub s club_id student_id role1 mid1 now1).2) := by
  intro role2 mid2 now2
  by_cases h1 : rowsFor s club_id student_id ≠ []
  · simp only [addMemberToClub, if_pos h1] at hok
    exact Except.noConfusion hok
  · by_cases h2 : (cmEntry s club_id student_id).isSome
    · simp only [addMemberToClub, if_neg h1, if_pos h2] at hok
      exact Except.noConfusion hok
    · rcases hc : s.clubs club_id with _ | club
      · simp only [addMemberToClub, if_neg h1, if_neg h2, hc] at hok
        exact Except.noConfusion hok
      · have hres : (addMemberToClub s club_id student_id role1 mid1 now1).2.memberships
            = setKey mid1 ⟨club_id, student_id, role1, now1⟩ s.memberships := by
          simp only [addMemberToClub, if_neg h1, if_neg h2, hc]
        have hne : rowsFor (addMemberToClub s club_id student_id role1 mid1 now1).2
            club_id student_id ≠ [] := by
          intro hnil
          have hmm : ((mid1, ⟨club_id, student_id, role1, now1⟩) : String × MembershipRow) ∈
              (addMemberToClub s club_id student_id role1 mid1 now1).2.memberships := by
            rw [hres]
            exact self_mem_setKey _ _ _
          have hin : ((mid1, ⟨club_id, student_id, role1, now1⟩) : String × MembershipRow) ∈
              rowsFor (addMemberToClub s club_id student_id role1 mid1 now1).2
                club_id student_id :=
            List.mem_filter.mpr ⟨hmm, by simp⟩
          rw [hnil] at hin
          simp at hin
        set s2 : DB := (addMemberToClub s club_id student_id role1 mid1 now1).2 with hs2
        show addMemberToClub s2 club_id student_id role2 mid2 now2
          = (.error "Student is already a member of this club", s2)
        simp only [addMemberToClub, if_pos hne]

/-- C6 witness: a concrete double add on `(C1, S1)` with a different role. -/
theorem C6_witness :
    addMemberToClub (addMemberToClub exS2 "C1" "S1" "Member" "M1" "t2").2
      "C1" "S1" "Officer" "M2" "t3"
    = (.error "Student is already a member of this club",
       (addMemberToClub exS2 "C1" "S1" "Member" "M1" "t2").2) :=
  C6_duplicate_add_conflict exS2 "C1" "S1" "Member" "M1" "t2" "M1" rfl "Officer" "M2" "t3"

/-- C7: `delete_club` fails `Club not found` when the club is absent; on an
existing club it succeeds and removes exactly the club's membership rows, its
`club_members` document, its key from every affected student's
`student_memberships` document (and only there — unaffected documents are
returned unchanged by the erase), and the club document itself, leaving
students and every other club's rows, documents and index entries untouched;
the affected students are exactly those with a membership row for the club. -/
theorem C7_delete_club_cascade (s : DB) (hs : Reach false s) (club_id : String) :
    (s.clubs club_id = none → deleteClub s club_id = (.error "Club not found", s)) ∧
    ((s.clubs club_id).isSome →
      (deleteClub s club_id).1 = .ok () ∧
      (deleteClub s club_id).2.clubs = upd s.clubs club_id none ∧
      (deleteClub s club_id).2.memberships =
        s.memberships.filter (fun p => !(p.2.club_id == club_id)) ∧
      (deleteClub s club_id).2.club_members = upd s.club_members club_id none ∧
      (deleteClub s club_id).2.students = s.students ∧
      (∀ t, (deleteClub s club_id).2.student_memberships t =
        (s.student_memberships t).map (eraseKey club_id)) ∧
      (∀ t, (smEntry s t club_id).isSome ↔ rowsFor s club_id t ≠ [])) := by
  have hinv := reach_inv hs
  constructor
  · intro hc
    simp only [deleteClub, hc]
  · intro hsome
    rcases hc : s.clubs club_id with _ | club
    · rw [hc] at hsome; simp at hsome
    set A : List String :=
      (((s.memberships.filter (fun p => p.2.club_id == club_id)).map
        (fun p => p.2.student_id)).filter (fun t => t != "")).dedup with hA
    have hAnd : A.Nodup := List.nodup_dedup _
    have haff : ∀ t, t ∈ A ↔ rowsFor s club_id t ≠ [] := by
      intro t
      rw [hA, List.mem_dedup, List.mem_filter]
      constructor
      · rintro ⟨hmap, _⟩
        obtain ⟨p, hpf, hps⟩ := List.mem_map.mp hmap
        have hpm := List.mem_filter.mp hpf
        intro hnil
        have hin : p ∈ rowsFor s club_id t := by
          apply List.mem_filter.mpr
          refine ⟨hpm.1, ?_⟩
          rw [Bool.and_eq_true]
          exact ⟨hpm.2, by simp [hps]⟩
        rw [hnil] at hin
        simp at hin
      · intro hne
        obtain ⟨p, hp⟩ := List.exists_mem_of_ne_nil _ hne
        obtain ⟨hpm, hpc, hpt⟩ := rowsFor_sub s club_id t p hp
        constructor
        · exact List.mem_map.mpr ⟨p, List.mem_filter.mpr ⟨hpm, by simp [hpc]⟩, hpt⟩
        · have hne2 := hinv.row_sne p hpm
          rw [hpt] at hne2
          simp [hne2]
    have h1 : (deleteClub s club_id).1 = .ok () := by
      simp only [deleteClub, hc]
    have h2 : (deleteClub s club_id).2 =
        { s with
          memberships := s.memberships.filter (fun p => !(p.2.club_id == club_id)),
          club_members := upd s.club_members club_id none,
          clubs := upd s.clubs club_id none,
          student_memberships := smEraseFold club_id A s.student_memberships } := by
      rw [hA]
      simp only [deleteClub, hc]
    refine ⟨h1, ?_, ?_, ?_, ?_, ?_, ?_⟩
    · rw [h2]
    · rw [h2]
    · rw [h2]
    · rw [h2]
    · intro t
      rw [h2]
      show smEraseFold club_id A s.student_memberships t = _
      rw [smEraseFold_char club_id A hAnd s.student_memberships t]
      by_cases htA : t ∈ A
      · rw [if_pos htA]
      · rw [if_neg htA]
        rcases hsmt : s.student_memberships t with _ | d
        · simp
        · simp only [Option.map_some', Option.some_inj]
          have hnr : rowsFor s club_id t = [] := by
            by_contra hne
            exact htA ((haff t).mpr hne)
          have hnone : getk d club_id = none := by
            apply Option.not_isSome_iff_eq_none.mp
            intro hsm
            have : (smEntry s t club_id).isSome := by
              rw [smEntry, hsmt]
              simpa using hsm
            exact (hinv.sm_row club_id t).mp this hnr
          rw [eraseKey_of_getk_none d club_id hnone]
    · exact fun t => hinv.sm_row club_id t

/-- C7 witness: the cascade evaluated on the concrete state `exS3`. -/
theorem C7_witness :
    (deleteClub exS3 "C1").1 = .ok () ∧
    (deleteClub exS3 "C1").2.clubs = upd exS3.clubs "C1" none ∧
    (deleteClub exS3 "C1").2.memberships =
      exS3.memberships.filter (fun p => !(p.2.club_id == "C1")) ∧
    (deleteClub exS3 "C1").2.club_members = upd exS3.club_members "C1" none ∧
    (deleteClub exS3 "C1").2.students = exS3.students ∧
    (∀ t, (deleteClub exS3 "C1").2.student_memberships t =
      (exS3.student_memberships t).map (eraseKey "C1")) ∧
    (∀ t, (smEntry exS3 t "C1").isSome ↔ rowsFor exS3 "C1" t ≠ []) :=
  (C7_delete_club_cascade exS3 (reach_exS3 false) "C1").2 (by decide)

/-- C8: `update_member_role` rejects non-enum roles with `Invalid role` and
absent pairs with `Membership not found`, both leaving the state unchanged;
on the unique row of an active pair with a valid role it overwrites exactly
the `role` field of the membership row and of both index entries, keeping
their `membership_id` and `join_date`, the club documents (hence
`member_count`) and the student documents untouched. -/
theorem C8_update_role (s : DB) (hs : Reach false s)
    (club_id student_id new_role : String) :
    (new_role ∉ allowedRoles →
      updateMemberRole s club_id student_id new_role = (.error "Invalid role", s)) ∧
    (new_role ∈ allowedRoles → rowsFor s club_id student_id = [] →
      updateMemberRole s club_id student_id new_role
        = (.error "Membership not found", s)) ∧
    (∀ mid row, new_role ∈ allowedRoles →
      rowsFor s club_id student_id = [(mid, row)] →
      ∃ cm sm ecm esm,
        s.club_members club_id = some cm ∧
        s.student_memberships student_id = some sm ∧
        getk cm student_id = some ecm ∧ getk sm club_id = some esm ∧
        updateMemberRole s club_id student_id new_role = (.ok (),
          { s with
            memberships := setKey mid { row with role := new_role } s.memberships,
            club_members := upd s.club_members club_id
              (some (setKey student_id { ecm with role := new_role } cm)),
            student_memberships := upd s.student_memberships student_id
              (some (setKey club_id { esm with role := new_role } sm)) })) := by
  have hinv := reach_inv hs
  refine ⟨?_, ?_, ?_⟩
  · intro hrole
    simp only [updateMemberRole, if_pos hrole]
  · intro hrole hq
    simp only [updateMemberRole, if_neg (not_not_intro hrole), hq]
  · intro mid row hrole hq
    have hcme : (cmEntry s club_id student_id).isSome := by
      rw [hinv.cm_row, hq]; simp
    have hsme : (smEntry s student_id club_id).isSome := by
      rw [hinv.sm_row, hq]; simp
    rcases hcm : s.club_members club_id with _ | cm
    · rw [cmEntry, hcm] at hcme; simp at hcme
    rcases hsm : s.student_memberships student_id with _ | sm
    · rw [smEntry, hsm] at hsme; simp at hsme
    rw [cmEntry, hcm] at hcme
    rw [smEntry, hsm] at hsme
    simp only [Option.getD_some] at hcme hsme
    rcases Option.isSome_iff_exists.mp hcme with ⟨ecm, hecm⟩
    rcases Option.isSome_iff_exists.mp hsme with ⟨esm, hesm⟩
    refine ⟨cm, sm, ecm, esm, rfl, rfl, hecm, hesm, ?_⟩
    simp only [updateMemberRole, if_neg (not_not_intro hrole), hq, hcm, hsm,
      setRoleField, hecm, hesm]

/-- C8 witness: the role change `President → Treasurer` on the concrete pair
`(C1, S1)` of `exS3`. -/
theorem C8_witness :
    ∃ cm sm ecm esm,
      exS3.club_members "C1" = some cm ∧
      exS3.student_memberships "S1" = some sm ∧
      getk cm "S1" = some ecm ∧ getk sm "C1" = some esm ∧
      updateMemberRole exS3 "C1" "S1" "Treasurer" = (.ok (),
        { exS3 with
          memberships := setKey "M1"
            { (⟨"C1", "S1", "President", "t2"⟩ : MembershipRow) with role := "Treasurer" }
            exS3.memberships,
          club_members := upd exS3.club_members "C1"
            (some (setKey "S1" { ecm with role := "Treasurer" } cm)),
          student_memberships := upd exS3.student_memberships "S1"
            (some (setKey "C1" { esm with role := "Treasurer" } sm)) }) :=
  (C8_update_role exS3 (reach_exS3 false) "C1" "S1" "Treasurer").2.2 "M1"
    ⟨"C1", "S1", "President", "t2"⟩ (by decide) (by decide)

/-- C9: on input fields without caller-supplied `created_at`/`member_count`
(the only shape the application layer produces) and a fresh document id,
`create_club` returns the fresh id and persists the club with `created_at`
set to the call time and `member_count` 0, touching nothing else; the
operation has no failure path. -/
theorem C9_create_club (s : DB) (input : ClubInput) (newId now : String)
    (hca : input.created_at = none) (hmc : input.member_count = none)
    (_hfresh : s.clubs newId = none) :
    (createClub s input newId now).2 = newId ∧
    (createClub s input newId now).1.clubs newId =
      some ⟨input.name, input.description, input.category, input.meeting_time, now, 0⟩ ∧
    (∀ c, c ≠ newId → (createClub s input newId now).1.clubs c = s.clubs c) ∧
    (createClub s input newId now).1.students = s.students ∧
    (createClub s input newId now).1.memberships = s.memberships ∧
    (createClub s input newId now).1.club_members = s.club_members ∧
    (createClub s input newId now).1.student_memberships = s.student_memberships := by
  refine ⟨rfl, ?_, ?_, rfl, rfl, rfl, rfl⟩
  · have hval : (createClub s input newId now).1.clubs newId =
        some ⟨input.name, input.description, input.category, input.meeting_time,
          input.created_at.getD now, input.member_count.getD 0⟩ := upd_self _ _ _
    rw [hval, hca, hmc]
    rfl
  · intro c hcne
    exact upd_ne _ _ _ _ hcne

/-- C9 witness: creating the concrete club `C1` in the empty store. -/
theorem C9_witness :
    (createClub emptyDB exClubInput "C1" "t0").2 = "C1" ∧
    (createClub emptyDB exClubInput "C1" "t0").1.clubs "C1" =
      some ⟨"Chess Club", "weekly tournaments", none, none, "t0", 0⟩ ∧
    (∀ c, c ≠ "C1" → (createClub emptyDB exClubInput "C1" "t0").1.clubs c
      = emptyDB.clubs c) ∧
    (createClub emptyDB exClubInput "C1" "t0").1.students = emptyDB.students ∧
    (createClub emptyDB exClubInput "C1" "t0").1.memberships = emptyDB.memberships ∧
    (createClub emptyDB exClubInput "C1" "t0").1.club_members = emptyDB.club_members ∧
    (createClub emptyDB exClubInput "C1" "t0").1.student_memberships
      = emptyDB.student_memberships :=
  C9_create_club emptyDB exClubInput "C1" "t0" rfl rfl rfl

/-- C10: whenever `add_member_to_club` raises the duplicate-membership error,
it has performed no write at all — the returned state is exactly the input
state, because both duplicate checks precede the single write batch. -/
theorem C10_duplicate_add_no_write (s : DB)
    (club_id student_id role newMid now : String)
    (herr : (addMemberToClub s club_id student_id role newMid now).1 =
      .error "Student is already a member of this club") :
    (addMemberToClub s club_id student_id role newMid now).2 = s := by
  by_cases h1 : rowsFor s club_id student_id ≠ []
  · simp only [addMemberToClub, if_pos h1]
  · by_cases h2 : (cmEntry s club_id student_id).isSome
    · simp only [addMemberToClub, if_neg h1, if_pos h2]
    · rcases hc : s.clubs club_id with _ | club
      · simp only [addMemberToClub, if_neg h1, if_neg h2, hc]
      · simp only [addMemberToClub, if_neg h1, if_neg h2, hc] at herr
        exact Except.noConfusion herr

/-- C10 witness: the duplicate add on `(C1, S1)` in `exS3` returns `exS3`
itself. -/
theorem C10_witness :
    (addMemberToClub exS3 "C1" "S1" "Member" "M2" "t3").2 = exS3 :=
  C10_duplicate_add_no_write exS3 "C1" "S1" "Member" "M2" "t3" rfl

/-- The store-reachable state after deleting `S1` from `exGhost2`: club `C1`
still has the active ghost membership `(C1, GHOST)` while its recomputed
`member_count` is 0. -/
def exGhost3 : DB := (deleteStudent exGhost2 "S1").2

/-- C5 (counterexample): the claim as stated fails on the code. In the
store-reachable state `exGhost3` the pair `(C1, GHOST)` is an active
membership while `member_count(C1)` is already 0 (the C1 failure mode:
`add_member_to_club` never checked that `GHOST` exists and the
`delete_student` recount skipped it). The first `remove_member_from_club`
succeeds, but the `max(0, count - 1)` floor leaves `member_count` at 0 —
the count is not decremented at all across the two calls, let alone exactly
once. -/
theorem C5_counterexample :
    Reach false exGhost3 ∧
    rowsFor exGhost3 "C1" "GHOST" ≠ [] ∧
    exGhost3.clubs "C1" =
      some ⟨"Chess Club", "weekly tournaments", none, none, "t0", 0⟩ ∧
    (removeMemberFromClub exGhost3 "C1" "GHOST").1 = .ok () ∧
    (removeMemberFromClub exGhost3 "C1" "GHOST").2.clubs "C1" =
      some ⟨"Chess Club", "weekly tournaments", none, none, "t0", 0⟩ :=
  ⟨Reach.step_deleteStudent false exGhost2 "S1" reach_exGhost2,
    by decide, by decide, rfl, by decide⟩
